import Mathlib

/-!
# BMS response protocol engine (src/src/main.cpp)

Shallow embedding of the frame reassembler (`bmsNotifyCallback`,
`appendBmsPacket`), the checksum (`getChecksumForReceivedData`,
`getIsChecksumValidForReceivedData`) and the decoder
(`printBmsDataReceived`) of the XiaoXiang/JBD BMS reader.

Conventions of the embedding:
* a `uint8_t` is a `Byte` (`Fin 256`); C `int` arithmetic on promoted bytes is
  done in `Nat` (or `Int` where a subtraction can go below zero);
* a `uint8_t *` is the memory that starts at the pointer, a function from the
  offset to the byte stored there (`Mem`); offsets past the end of the object
  the pointer was taken from are whatever memory follows it;
* `Serial` output is returned as a list of `Printed` events; values printed
  through a float format are kept as the integer that is converted to float.
-/

namespace BmsReader

/-- A `uint8_t`. -/
abbrev Byte := Fin 256

/-- The memory reachable from a `uint8_t *`, by offset. -/
abbrev Mem := Nat → Byte

/-- Line 23: `#define MAX_BMS_DATA_CAPACITY 100`. -/
def MAX_BMS_DATA_CAPACITY : Nat := 100

/-- The assignment `m[i] = b`. -/
def setByte (m : Mem) (i : Nat) (b : Byte) : Mem :=
  fun j => if j = i then b else m j

/-- The memory that holds the bytes of `l` from offset 0 on, followed by zero bytes. -/
def memOfList (l : List Byte) : Mem :=
  fun i => l.getD i 0

/-- The first `n` bytes of a memory, as a list. -/
def bytesOf (m : Mem) (n : Nat) : List Byte :=
  (List.range n).map m

/-- Lines 32-36: the global reassembly state. `bmsDataLengthReceived` and
`bmsDataLengthExpected` are C `int`s that are only ever assigned 0, a byte, or
incremented, hence `Nat`. `bmsDataReceived` is the memory at the 100-byte array. -/
structure BmsState where
  bmsDataLengthReceived : Nat
  bmsDataLengthExpected : Nat
  bmsDataError : Bool
  bmsDataReceived : Mem

/-- The state at program start: zero-initialised globals. -/
def initialState : BmsState :=
  { bmsDataLengthReceived := 0, bmsDataLengthExpected := 0, bmsDataError := false,
    bmsDataReceived := fun _ => 0 }

/-- Lines 259-261 of `loop`: the three assignments made after a request is sent.
The buffer contents are not cleared. -/
def loopReset (s : BmsState) : BmsState :=
  { s with bmsDataLengthReceived := 0, bmsDataLengthExpected := 0, bmsDataError := false }

/-! ## Checksum -/

/-- Lines 221-224: the value of `checksum` after the first `n` iterations of the
loop `for (i = 0; i < dataLengthProvided + 1; i++) checksum -= data[i + 3]`. -/
def checksumLoop (data : Mem) : Nat → Int → Int
  | 0, checksum => checksum
  | n + 1, checksum => checksumLoop data n checksum - ((data (n + 3)).val : Int)

/-- Lines 216-227: `getChecksumForReceivedData`. The `int` accumulator starts at
`0x10000`; the result is cast to `uint16_t`. -/
def getChecksumForReceivedData (data : Mem) : Nat :=
  let dataLengthProvided := (data 3).val
  (checksumLoop data (dataLengthProvided + 1) 0x10000 % 65536).toNat

/-- Lines 208-211: `getIsChecksumValidForReceivedData`. -/
def getIsChecksumValidForReceivedData (data : Mem) : Bool :=
  let checksumIndex := (data 3).val + 4
  decide (getChecksumForReceivedData data
    = (data checksumIndex).val * 256 + (data (checksumIndex + 1)).val)

/-- The sum of the `n` bytes of `data` from offset 3 on. -/
def checksumSum (data : Mem) (n : Nat) : Nat :=
  Finset.sum (Finset.range n) (fun i => (data (3 + i)).val)

/-! ## Decoder -/

/-- The values printed by the `0x03` branch of `printBmsDataReceived`, in the
order printed. Fields printed as `x / 100` or `x / 10` hold the integer `x`. -/
structure PackSummary where
  totalVolts : Nat
  current : Nat
  remainingCapacity : Nat
  nominalCapacity : Nat
  totalCycles : Nat
  year : Nat
  month : Nat
  day : Nat
  balancing : List (Nat × Bool)
  protectionBits : List Nat
  softwareVersion : Nat
  remainingPercent : Nat
  chargeOn : Bool
  dischargeOn : Bool
  numberOfCells : Nat
  numberOfTemperatureSensors : Nat
  temperatures : List (Nat × Int)
deriving DecidableEq

/-- One block of output of `printBmsDataReceived`. -/
inductive Decoded where
  | packSummary (p : PackSummary)
  | cellVoltages (cells : List (Nat × Nat))
deriving DecidableEq

/-- Lines 285-289: the balancing line of cell `i`: the label printed and whether
it reads "balancing". -/
def balancingLine (data : Mem) (i : Nat) : Nat × Bool :=
  let b := (data (16 + i / 8)).val
  let shift := 7 - i % 8
  (i, decide ((b >>> shift) &&& 0x01 = 1))

/-- Lines 303-306: the line of temperature sensor `i`: the label printed and the
integer `data[27 + i*2] * 256 + data[28 + i*2] - 2731` that is divided by 10. -/
def temperatureLine (data : Mem) (i : Nat) : Nat × Int :=
  (i + 1, ((data (27 + i * 2)).val * 256 + (data (28 + i * 2)).val : Nat) - (2731 : Int))

/-- Lines 313-316: the line of cell `i`: the label printed and `millivolts`. -/
def cellLine (data : Mem) (i : Nat) : Nat × Nat :=
  (i + 1, (data (4 + 2 * i)).val * 256 + (data (5 + 2 * i)).val)

/-- Lines 274-309: the `0x03` branch of `printBmsDataReceived`. -/
def printPackSummary (data : Mem) : PackSummary :=
  let date := ((data 14).val * 256 + (data 15).val) % 65536
  let bmsNumberOfCells := (data 25).val
  let protectionStatus := ((data 20).val * 256 + (data 21).val) % 65536
  let numberOfTemperatureSensors := (data 26).val
  { totalVolts := (data 4).val * 256 + (data 5).val
    current := (data 6).val * 256 + (data 7).val
    remainingCapacity := (data 8).val * 256 + (data 9).val
    nominalCapacity := (data 10).val * 256 + (data 11).val
    totalCycles := (data 12).val * 256 + (data 13).val
    year := (date >>> 9) + 2000
    month := (date >>> 5) &&& 0x0F
    day := date &&& 0x1F
    balancing := (List.range bmsNumberOfCells).map (balancingLine data)
    protectionBits := (List.range 16).reverse.map (fun i => (protectionStatus >>> i) &&& 0x01)
    softwareVersion := (data 22).val
    remainingPercent := (data 23).val
    chargeOn := decide ((data 24).val &&& 0x01 = 1)
    dischargeOn := decide ((data 24).val &&& 0x02 = 2)
    numberOfCells := bmsNumberOfCells
    numberOfTemperatureSensors := numberOfTemperatureSensors
    temperatures := (List.range numberOfTemperatureSensors).map (temperatureLine data) }

/-- Lines 311-317: the `0x04` branch of `printBmsDataReceived`; `bmsNumberOfCells`
is the `int` that holds `data[3]/2`. -/
def printCellVoltages (data : Mem) : List (Nat × Nat) :=
  let bmsNumberOfCells := (data 3).val / 2
  (List.range bmsNumberOfCells).map (cellLine data)

/-- Lines 272-318: `printBmsDataReceived`, two `if` blocks in sequence. -/
def printBmsDataReceived (data : Mem) : List Decoded :=
  (if data 1 = 0x03 then [Decoded.packSummary (printPackSummary data)] else [])
  ++ (if data 1 = 0x04 then [Decoded.cellVoltages (printCellVoltages data)] else [])

/-! ## Reassembler -/

/-- What `bmsNotifyCallback` writes to `Serial`. -/
inductive Printed where
  /-- Lines 181-182: "Complete packet received ..." and `printHex` of the buffer. -/
  | completePacket (hex : List Byte)
  /-- Lines 185-186: "Checksums match" and the decoded values. -/
  | checksumsMatch (decoded : List Decoded)
  /-- Lines 189-190: "Checksum error: received is %04X, calculated is %04X",
  with the two arguments in the order they are passed to `printf`. -/
  | checksumError (shownAsReceived shownAsCalculated : Nat)
  /-- Line 194: "Data error: data[2] contains ..., bmsDataLengthReceived is ...". -/
  | dataError (data2 : Byte) (lengthReceived : Nat)
deriving DecidableEq

/-- Line 202: one iteration of the copy loop,
`bmsDataReceived[bmsDataLengthReceived++] = data[i]`, on the pair
(buffer, `bmsDataLengthReceived`). -/
def appendStep (data : Mem) (st : Mem × Nat) (i : Nat) : Mem × Nat :=
  (setByte st.1 st.2 (data i), st.2 + 1)

/-- Line 202: the pair (buffer, `bmsDataLengthReceived`) after the first `n`
iterations of `for (i = 0; i < dataLen; i++)`. -/
def appendLoop (data : Mem) : Nat → Mem × Nat → Mem × Nat
  | 0, st => st
  | n + 1, st => appendStep data (appendLoop data n st) n

/-- Lines 200-204: `appendBmsPacket`; the result and the new
(buffer, `bmsDataLengthReceived`). -/
def appendBmsPacket (st : Mem × Nat) (data : Mem) (dataLen : Nat) : Bool × (Mem × Nat) :=
  if dataLen + st.2 ≥ MAX_BMS_DATA_CAPACITY - 1 then (false, st)
  else (true, appendLoop data dataLen st)

/-- Lines 181-191: what is printed for a complete packet. -/
def completionReport (s : BmsState) : List Printed :=
  Printed.completePacket (bytesOf s.bmsDataReceived s.bmsDataLengthReceived) ::
  (if getIsChecksumValidForReceivedData s.bmsDataReceived then
    [Printed.checksumsMatch (printBmsDataReceived s.bmsDataReceived)]
  else
    let checksum := getChecksumForReceivedData s.bmsDataReceived
    [Printed.checksumError checksum
      (256 * (s.bmsDataReceived (s.bmsDataLengthExpected + 4)).val
        + (s.bmsDataReceived (s.bmsDataLengthExpected + 5)).val)])

/-- Lines 164-174: the first half of `bmsNotifyCallback`, the state update. -/
def receiveChunk (s : BmsState) (data : Mem) (len : Nat) : BmsState :=
  if s.bmsDataLengthReceived = 0 then
    if data 0 = 0xDD then
      let s1 := { s with bmsDataError := decide (data 2 ≠ 0),
                         bmsDataLengthExpected := (data 3).val }
      if ¬ s1.bmsDataError then
        let r := appendBmsPacket (s1.bmsDataReceived, s1.bmsDataLengthReceived) data len
        { s1 with bmsDataError := !r.1, bmsDataReceived := r.2.1,
                  bmsDataLengthReceived := r.2.2 }
      else s1
    else s
  else
    let r := appendBmsPacket (s.bmsDataReceived, s.bmsDataLengthReceived) data len
    { s with bmsDataError := !r.1, bmsDataReceived := r.2.1, bmsDataLengthReceived := r.2.2 }

/-- Lines 176-195: the second half of `bmsNotifyCallback`, the reporting. -/
def reportChunk (s : BmsState) (data : Mem) : List Printed :=
  if ¬ s.bmsDataError then
    if s.bmsDataLengthReceived = s.bmsDataLengthExpected + 7 then completionReport s
    else []
  else [Printed.dataError (data 2) s.bmsDataLengthReceived]

/-- Lines 158-196: `bmsNotifyCallback`; the new state and what is printed. -/
def bmsNotifyCallback (s : BmsState) (data : Mem) (len : Nat) : BmsState × List Printed :=
  if s.bmsDataError then (s, [])
  else
    let s1 := receiveChunk s data len
    (s1, reportChunk s1 data)

/-- One notification: the pointer handed to the callback and the length. -/
structure Notification where
  data : Mem
  len : Nat

/-- The bytes a notification carries: the first `len` bytes at `data`. -/
def Notification.payload (c : Notification) : List Byte :=
  bytesOf c.data c.len

/-- The notification that carries exactly the bytes of `l` (zero bytes follow
in memory). -/
def Notification.ofList (l : List Byte) : Notification :=
  { data := memOfList l, len := l.length }

/-- The callback run on a sequence of notifications, in order; the final state
and everything printed. -/
def feed : BmsState → List Notification → BmsState × List Printed
  | s, [] => (s, [])
  | s, c :: cs =>
    let r := bmsNotifyCallback s c.data c.len
    let r2 := feed r.1 cs
    (r2.1, r.2 ++ r2.2)

/-- The events that act on the reassembly state: a notification or the reset in `loop`. -/
inductive Event where
  | notify (c : Notification)
  | reset

/-- The state after one event. -/
def step (s : BmsState) : Event → BmsState
  | Event.notify c => (bmsNotifyCallback s c.data c.len).1
  | Event.reset => loopReset s

/-- The states reachable from the initial state by notifications and resets. -/
inductive Reachable : BmsState → Prop where
  | init : Reachable initialState
  | step (s : BmsState) (e : Event) : Reachable s → Reachable (step s e)

/-- The memory `buf` with the bytes of `G` stored from offset `r` on. -/
def writeAt (buf : Mem) (r : Nat) (G : List Byte) : Mem :=
  fun j => if r ≤ j ∧ j < r + G.length then G.getD (j - r) 0 else buf j

/-- The spec's `AppendOutcome` of handling one chunk. -/
inductive AppendOutcome where
  | Continuing
  | FrameComplete
  | Error
deriving DecidableEq

/-- The outcome of one call of `bmsNotifyCallback`, read off what the call leaves
behind: `Error` when `bmsDataError` is set on return, `FrameComplete` when the
complete-packet report was printed, `Continuing` otherwise. -/
def appendOutcome (r : BmsState × List Printed) : AppendOutcome :=
  if r.1.bmsDataError then AppendOutcome.Error
  else if r.2 = [] then AppendOutcome.Continuing
  else AppendOutcome.FrameComplete

/-- A chunk of `n` zero bytes. -/
def zeroChunk (n : Nat) : Notification :=
  Notification.ofList (List.replicate n 0)

/-- A 99-byte frame with payload length `N = 92 = 0x5C`: header `DD 04 00 5C`,
92 zero payload bytes, checksum `FF A4`, end marker `77`. -/
def longFrame : List Byte :=
  [0xDD, 0x04, 0x00, 0x5C] ++ List.replicate 92 0 ++ [0xFF, 0xA4, 0x77]

/-- A first chunk whose status byte is `0x80`: `DD 03 80 00`. -/
def faultChunk : Notification :=
  Notification.ofList [0xDD, 0x03, 0x80, 0x00]

/-- A complete `0x04` frame with payload `0B 5F 0B 5B` (`N = 4`), checksum `FF 2C`. -/
def twoCellFrame : List Byte :=
  [0xDD, 0x04, 0x00, 0x04, 0x0B, 0x5F, 0x0B, 0x5B, 0xFF, 0x2C, 0x77]

/-! ## Sample frames from the serial log (lines 321-345) -/

/-- Lines 325 and 328: the first logged `0x03` frame (34 bytes). -/
def sampleFrame03 : List Byte :=
  [0xDD, 0x03, 0x00, 0x1B, 0x05, 0x57, 0x00, 0x00, 0x2E, 0xD6, 0x2E, 0xE0, 0x00, 0x02, 0x2A,
   0xA7, 0x00, 0x00, 0x00, 0x00,
   0x00, 0x01, 0x20, 0x64, 0x02, 0x04, 0x02, 0x0B, 0x5F, 0x0B, 0x5B, 0xFB, 0x47, 0x77]

/-- Line 332: the first logged `0x04` frame (15 bytes). -/
def sampleFrame04 : List Byte :=
  [0xDD, 0x04, 0x00, 0x08, 0x0D, 0xC7, 0x0D, 0x2A, 0x0D, 0x54, 0x0D, 0x21, 0xFE, 0x5E, 0x77]

/-- Lines 336 and 339: the second logged `0x03` frame (34 bytes). -/
def sampleFrame03b : List Byte :=
  [0xDD, 0x03, 0x00, 0x1B, 0x05, 0x56, 0x00, 0x00, 0x2E, 0xD6, 0x2E, 0xE0, 0x00, 0x02, 0x2A,
   0xA7, 0x00, 0x00, 0x00, 0x00,
   0x00, 0x01, 0x20, 0x64, 0x02, 0x04, 0x02, 0x0B, 0x5E, 0x0B, 0x5B, 0xFB, 0x49, 0x77]

/-- The logged `0x04` frame cut into one-byte notifications (zero bytes follow
each one-byte chunk in memory). -/
def sampleFrame04ByteAtATime : List Notification :=
  sampleFrame04.map (fun b => Notification.ofList [b])

/-! ## Decoder: readings named by the specification and sample inputs -/

/-- The 16-bit two's-complement reading of a raw value `0..0xFFFF`: values from
`0x8000` on stand for `raw - 0x10000`. -/
def twosComplement16 (raw : Nat) : Int :=
  if raw < 0x8000 then (raw : Int) else (raw : Int) - 0x10000

/-- The logged `0x03` frame with the current bytes 6..7 set to `FF FF`
(checksum `F9 49`). -/
def negativeCurrentFrame : List Byte :=
  [0xDD, 0x03, 0x00, 0x1B, 0x05, 0x57, 0xFF, 0xFF, 0x2E, 0xD6, 0x2E, 0xE0, 0x00, 0x02, 0x2A,
   0xA7, 0x00, 0x00, 0x00, 0x00,
   0x00, 0x01, 0x20, 0x64, 0x02, 0x04, 0x02, 0x0B, 0x5F, 0x0B, 0x5B, 0xF9, 0x49, 0x77]

/-- The logged `0x03` frame with the sensor count at byte 26 raised from 2 to 3
(checksum `FB 46`): the third temperature would lie at bytes 31..32, which are
the checksum bytes of the 34-byte frame. -/
def overlongCountFrame : List Byte :=
  [0xDD, 0x03, 0x00, 0x1B, 0x05, 0x57, 0x00, 0x00, 0x2E, 0xD6, 0x2E, 0xE0, 0x00, 0x02, 0x2A,
   0xA7, 0x00, 0x00, 0x00, 0x00,
   0x00, 0x01, 0x20, 0x64, 0x02, 0x04, 0x03, 0x0B, 0x5F, 0x0B, 0x5B, 0xFB, 0x46, 0x77]

/-! ## Reassembler: reading the output -/

/-- Whether a printed item is the "Complete packet received" report of lines
181-182, printed exactly when the completion test of line 177 succeeds. -/
def Printed.isCompletePacket : Printed → Bool
  | Printed.completePacket _ => true
  | _ => false

/-- Whether a printed item is the verdict of the checksum validation of line 184. -/
def Printed.isVerdict : Printed → Bool
  | Printed.checksumsMatch _ => true
  | Printed.checksumError _ _ => true
  | _ => false

/-- Whether a printed item is the decoded record of line 186. -/
def Printed.isRecord : Printed → Bool
  | Printed.checksumsMatch _ => true
  | _ => false

/-- Whether the output of one call holds the complete-packet report. -/
def reportsCompletion (out : List Printed) : Bool :=
  out.any Printed.isCompletePacket

/-- The result of each call of `bmsNotifyCallback` on a sequence of
notifications, in order. -/
def feedTrace : BmsState → List Notification → List (BmsState × List Printed)
  | _, [] => []
  | s, c :: cs =>
    let r := bmsNotifyCallback s c.data c.len
    r :: feedTrace r.1 cs

/-- The logged `0x04` frame with its second checksum byte changed from `5E` to
`5F`: the stored checksum is `0xFE5F`, the computed one `0xFE5E`. -/
def badChecksumFrame : List Byte :=
  [0xDD, 0x04, 0x00, 0x08, 0x0D, 0xC7, 0x0D, 0x2A, 0x0D, 0x54, 0x0D, 0x21, 0xFE, 0x5F, 0x77]

/-- The states reachable from a reset state (lengths 0, error clear, any buffer
contents) by notifications in which every chunk handled while the buffer is
empty carries at least 4 bytes. -/
inductive ReachableByFrames : BmsState → Prop where
  | reset (s : BmsState) : s.bmsDataLengthReceived = 0 → s.bmsDataLengthExpected = 0 →
      s.bmsDataError = false → ReachableByFrames s
  | notify (s : BmsState) (c : Notification) : ReachableByFrames s →
      (s.bmsDataLengthReceived = 0 → 4 ≤ c.len) →
      ReachableByFrames (bmsNotifyCallback s c.data c.len).1

/-- A state in which no further non-empty chunk can complete a frame: the error
flag is set, or the buffer is non-empty and already holds `expected + 7` bytes
or more. -/
def Spent (s : BmsState) : Prop :=
  s.bmsDataError = true
  ∨ (0 < s.bmsDataLengthReceived ∧ s.bmsDataLengthExpected + 7 ≤ s.bmsDataLengthReceived)

/-! ## Decoder: offsets read -/

/-- Lines 312-314: the offsets of `data` read by the `0x04` branch of
`printBmsDataReceived`: `data[3]`, then `data[4 + 2*i]` and `data[5 + 2*i]` for
every `i` below `data[3]/2`. The test of `data[1]` in line 311 selects the
branch and comes before it. -/
def cellVoltageReads (data : Mem) : List Nat :=
  3 :: (List.range ((data 3).val / 2)).flatMap (fun i => [4 + 2 * i, 5 + 2 * i])

/-- Lines 276-304: the offsets of `data` read by the `0x03` branch of
`printBmsDataReceived`, in source order: the fixed fields 4..15, the cell count
at 25, `data[16 + i/8]` for every cell, the fixed fields 20..24, the sensor
count at 26, then `data[27 + i*2]` and `data[28 + i*2]` for every sensor. The
test of `data[1]` in line 274 selects the branch and comes before it. -/
def packSummaryReads (data : Mem) : List Nat :=
  [4, 5, 6, 7, 8, 9, 10, 11, 12, 13, 14, 15, 25]
  ++ (List.range (data 25).val).map (fun i => 16 + i / 8)
  ++ [20, 21, 22, 23, 24, 26]
  ++ (List.range (data 26).val).flatMap (fun i => [27 + i * 2, 28 + i * 2])

/-! ## Checksum: lemmas -/

theorem checksumLoop_eq (data : Mem) (n : Nat) (c : Int) :
    checksumLoop data n c = c - (checksumSum data n : Int) := by
  induction n with
  | zero => simp [checksumLoop, checksumSum]
  | succ k ih =>
    simp only [checksumLoop, ih, checksumSum, Finset.sum_range_succ, Nat.cast_add]
    rw [Nat.add_comm k 3]
    ring

theorem checksumSum_le (data : Mem) (n : Nat) : checksumSum data n ≤ 255 * n := by
  induction n with
  | zero => simp [checksumSum]
  | succ k ih =>
    have hb : (data (3 + k)).val < 256 := (data (3 + k)).isLt
    simp only [checksumSum, Finset.sum_range_succ] at ih ⊢
    omega

theorem checksumSum_congr (data data2 : Mem) (n : Nat)
    (h : ∀ i, 3 ≤ i → i < 3 + n → data2 i = data i) :
    checksumSum data2 n = checksumSum data n := by
  unfold checksumSum
  apply Finset.sum_congr rfl
  intro i hi
  rw [h (3 + i) (by omega) (by have := Finset.mem_range.mp hi; omega)]

theorem getChecksum_eq_nat (data : Mem) :
    getChecksumForReceivedData data
      = (65536 - checksumSum data ((data 3).val + 1)) % 65536 := by
  have hb := checksumSum_le data ((data 3).val + 1)
  have hN : (data 3).val < 256 := (data 3).isLt
  simp only [getChecksumForReceivedData, checksumLoop_eq]
  omega

theorem setByte_ne (m : Mem) (i j : Nat) (b : Byte) (h : j ≠ i) : setByte m i b j = m j := by
  simp [setByte, h]

theorem setByte_same (m : Mem) (i : Nat) (b : Byte) : setByte m i b i = b := by
  simp [setByte]

theorem checksumSum_setByte (F : Mem) (n i : Nat) (v : Byte) (hlo : 3 ≤ i) (hhi : i < 3 + n) :
    checksumSum (setByte F i v) n + (F i).val = checksumSum F n + v.val := by
  have hk : i - 3 ∈ Finset.range n := Finset.mem_range.mpr (by omega)
  have h3 : 3 + (i - 3) = i := by omega
  unfold checksumSum
  rw [← Finset.add_sum_erase _ _ hk, ← Finset.add_sum_erase (Finset.range n) _ hk]
  have hrest : Finset.sum ((Finset.range n).erase (i - 3)) (fun j => (setByte F i v (3 + j)).val)
      = Finset.sum ((Finset.range n).erase (i - 3)) (fun j => (F (3 + j)).val) := by
    apply Finset.sum_congr rfl
    intro j hj
    have hne : j ≠ i - 3 := (Finset.mem_erase.mp hj).1
    rw [setByte_ne _ _ _ _ (by omega)]
  simp only [hrest, h3, setByte_same]
  omega

/-! ## Checksum: claims -/

/-- C2: the checksum is `(0x10000 - (data[3] + ... + data[3+N])) mod 2^16` with
`N = data[3]`, a sum over exactly `N + 1` bytes from index 3; bytes outside
`3..3+N` (start, command, status, checksum, end) do not contribute. -/
theorem checksum_formula (data : Mem) :
    ((getChecksumForReceivedData data : Nat) : Int)
        = (0x10000 - Finset.sum (Finset.range ((data 3).val + 1))
            (fun i => (((data (3 + i)).val : Nat) : Int))) % 2 ^ 16
    ∧ ∀ data2 : Mem, (∀ i, 3 ≤ i → i ≤ 3 + (data 3).val → data2 i = data i) →
        getChecksumForReceivedData data2 = getChecksumForReceivedData data := by
  constructor
  · have h := checksumLoop_eq data ((data 3).val + 1) 0x10000
    simp only [checksumSum, Nat.cast_sum] at h
    simp only [getChecksumForReceivedData, h]
    omega
  · intro data2 h
    have h3 : data2 3 = data 3 := h 3 (by omega) (by omega)
    rw [getChecksum_eq_nat, getChecksum_eq_nat, h3]
    rw [checksumSum_congr data data2 _ (fun i h1 h2 => h i h1 (by omega))]

/-- C3: on a buffer that validates, replacing one payload byte (index
`4 ≤ i < 4 + N`) by a different value makes validation fail. -/
theorem single_byte_corruption_detected (F : Mem) (i : Nat) (v : Byte)
    (hvalid : getIsChecksumValidForReceivedData F = true)
    (hlo : 4 ≤ i) (hhi : i < 4 + (F 3).val) (hv : v ≠ F i) :
    getIsChecksumValidForReceivedData (setByte F i v) = false := by
  have h3 : setByte F i v 3 = F 3 := setByte_ne _ _ _ _ (by omega)
  have h4 : setByte F i v ((F 3).val + 4) = F ((F 3).val + 4) := setByte_ne _ _ _ _ (by omega)
  have h5 : setByte F i v ((F 3).val + 4 + 1) = F ((F 3).val + 4 + 1) :=
    setByte_ne _ _ _ _ (by omega)
  have hsum := checksumSum_setByte F ((F 3).val + 1) i v (by omega) (by omega)
  have hb1 := checksumSum_le F ((F 3).val + 1)
  have hb2 := checksumSum_le (setByte F i v) ((F 3).val + 1)
  have hN : (F 3).val < 256 := (F 3).isLt
  have hne : v.val ≠ (F i).val := fun h => hv (Fin.ext h)
  simp only [getIsChecksumValidForReceivedData, getChecksum_eq_nat, decide_eq_true_eq] at hvalid
  simp only [getIsChecksumValidForReceivedData, getChecksum_eq_nat, h3, h4, h5,
    decide_eq_false_iff_not]
  omega

/-- Witness of C3: the logged frame `DD 03 00 1B ... FB 47 77` validates, and no
longer does once payload byte 4 is changed from `0x05` to `0x06`. -/
theorem single_byte_corruption_detected_witness :
    getIsChecksumValidForReceivedData (memOfList sampleFrame03) = true
    ∧ getIsChecksumValidForReceivedData (setByte (memOfList sampleFrame03) 4 0x06) = false :=
  ⟨by decide,
   single_byte_corruption_detected (memOfList sampleFrame03) 4 0x06 (by decide) (by decide)
     (by decide) (by decide)⟩

/-- C4: validation is true exactly when the computed checksum equals the
big-endian value stored right after the payload, `F[4+N]*256 + F[5+N]`; the
three logged sample frames validate. -/
theorem validation_iff_checksum_equality :
    (∀ F : Mem, getIsChecksumValidForReceivedData F = true ↔
      getChecksumForReceivedData F
        = (F (4 + (F 3).val)).val * 256 + (F (5 + (F 3).val)).val)
    ∧ getIsChecksumValidForReceivedData (memOfList sampleFrame03) = true
    ∧ getIsChecksumValidForReceivedData (memOfList sampleFrame04) = true
    ∧ getIsChecksumValidForReceivedData (memOfList sampleFrame03b) = true := by
  refine ⟨?_, by decide, by decide, by decide⟩
  intro F
  have e1 : (F 3).val + 4 = 4 + (F 3).val := Nat.add_comm _ _
  have e2 : (F 3).val + 4 + 1 = 5 + (F 3).val := by omega
  simp only [getIsChecksumValidForReceivedData, decide_eq_true_eq, e1]
  rw [show 4 + (F 3).val + 1 = 5 + (F 3).val by omega]

/-! ## Reassembler: lemmas -/

theorem appendLoop_snd (data : Mem) (n : Nat) (st : Mem × Nat) :
    (appendLoop data n st).2 = st.2 + n := by
  induction n with
  | zero => rfl
  | succ k ih => simp only [appendLoop, appendStep, ih]; omega

theorem appendLoop_fst (data : Mem) (n : Nat) (st : Mem × Nat) (j : Nat) :
    (appendLoop data n st).1 j
      = if st.2 ≤ j ∧ j < st.2 + n then data (j - st.2) else st.1 j := by
  induction n with
  | zero =>
    have h0 : ¬ (st.2 ≤ j ∧ j < st.2 + 0) := by omega
    rw [if_neg h0]
    rfl
  | succ k ih =>
    simp only [appendLoop, appendStep, appendLoop_snd, setByte, ih]
    by_cases h1 : j = st.2 + k
    · subst h1; simp
    · by_cases h2 : st.2 ≤ j ∧ j < st.2 + k
      · have h3 : st.2 ≤ j ∧ j < st.2 + (k + 1) := ⟨h2.1, by omega⟩
        simp [h1, h2, h3]
      · have h3 : ¬ (st.2 ≤ j ∧ j < st.2 + (k + 1)) := by omega
        simp [h1, h2, h3]

theorem appendBmsPacket_reject (st : Mem × Nat) (data : Mem) (dataLen : Nat)
    (h : 99 ≤ dataLen + st.2) : appendBmsPacket st data dataLen = (false, st) := by
  simp [appendBmsPacket, MAX_BMS_DATA_CAPACITY, h]

theorem appendBmsPacket_accept (st : Mem × Nat) (data : Mem) (dataLen : Nat)
    (h : dataLen + st.2 < 99) :
    appendBmsPacket st data dataLen = (true, appendLoop data dataLen st) := by
  have h2 : ¬ (99 ≤ dataLen + st.2) := by omega
  simp [appendBmsPacket, MAX_BMS_DATA_CAPACITY, h2]

theorem appendBmsPacket_received_le (st : Mem × Nat) (data : Mem) (dataLen : Nat)
    (h : st.2 ≤ 98) : (appendBmsPacket st data dataLen).2.2 ≤ 98 := by
  by_cases hc : 99 ≤ dataLen + st.2
  · rw [appendBmsPacket_reject _ _ _ hc]; exact h
  · rw [appendBmsPacket_accept _ _ _ (by omega), appendLoop_snd]; omega

theorem receiveChunk_received_le (s : BmsState) (data : Mem) (len : Nat)
    (h : s.bmsDataLengthReceived ≤ 98) :
    (receiveChunk s data len).bmsDataLengthReceived ≤ 98 := by
  unfold receiveChunk
  dsimp only
  split_ifs <;> first | exact h | exact appendBmsPacket_received_le _ _ _ h

theorem step_received_le (s : BmsState) (e : Event) (h : s.bmsDataLengthReceived ≤ 98) :
    (step s e).bmsDataLengthReceived ≤ 98 := by
  cases e with
  | notify c =>
    simp only [step, bmsNotifyCallback]
    split
    · exact h
    · exact receiveChunk_received_le _ _ _ h
  | reset => simp [step, loopReset]

theorem reachable_received_le (s : BmsState) (hs : Reachable s) :
    s.bmsDataLengthReceived ≤ 98 := by
  induction hs with
  | init => simp [initialState]
  | step s e _ ih => exact step_received_le s e ih

theorem bytesOf_length (m : Mem) (n : Nat) : (bytesOf m n).length = n := by
  simp [bytesOf]

theorem bytesOf_getD (m : Mem) (n i : Nat) (h : i < n) : (bytesOf m n).getD i 0 = m i := by
  simp [bytesOf, h]

theorem memOfList_bytesOf_append (m : Mem) (n i : Nat) (rest : List Byte) (h : i < n) :
    memOfList (bytesOf m n ++ rest) i = m i := by
  unfold memOfList
  rw [List.getD_append _ _ _ _ (by rw [bytesOf_length]; exact h), bytesOf_getD _ _ _ h]

theorem appendLoop_eq_writeAt (c : Notification) (buf : Mem) (r : Nat) :
    appendLoop c.data c.len (buf, r) = (writeAt buf r c.payload, r + c.len) := by
  apply Prod.ext
  · funext j
    simp only [appendLoop_fst, writeAt, Notification.payload, bytesOf_length]
    by_cases h : r ≤ j ∧ j < r + c.len
    · rw [if_pos h, if_pos h, bytesOf_getD _ _ _ (by omega)]
    · rw [if_neg h, if_neg h]
  · simp [appendLoop_snd]

theorem writeAt_append (buf : Mem) (r : Nat) (G1 G2 : List Byte) :
    writeAt (writeAt buf r G1) (r + G1.length) G2 = writeAt buf r (G1 ++ G2) := by
  funext j
  simp only [writeAt, List.length_append]
  by_cases h2 : r + G1.length ≤ j ∧ j < r + G1.length + G2.length
  · have h : r ≤ j ∧ j < r + (G1.length + G2.length) := by omega
    rw [if_pos h2, if_pos h, List.getD_append_right _ _ _ _ (by omega)]
    congr 1
    omega
  · rw [if_neg h2]
    by_cases h1 : r ≤ j ∧ j < r + G1.length
    · have h : r ≤ j ∧ j < r + (G1.length + G2.length) := by omega
      rw [if_pos h1, if_pos h, List.getD_append _ _ _ _ (by omega)]
    · have h : ¬ (r ≤ j ∧ j < r + (G1.length + G2.length)) := by omega
      rw [if_neg h1, if_neg h]

theorem writeAt_zero_lt (buf : Mem) (G : List Byte) (i : Nat) (h : i < G.length) :
    writeAt buf 0 G i = memOfList G i := by
  simp [writeAt, memOfList, h]

/-- One accepted chunk of a frame: either the chunk that starts the frame
(buffer empty, header bytes in the chunk) or a later one. -/
theorem bmsNotifyCallback_frame_chunk (N r E : Nat) (buf : Mem) (c : Notification)
    (hfit : c.len + r < 99)
    (hcase : (r = 0 ∧ c.data 0 = 0xDD ∧ c.data 2 = 0 ∧ (c.data 3).val = N) ∨ (0 < r ∧ E = N)) :
    bmsNotifyCallback ⟨r, E, false, buf⟩ c.data c.len
      = (⟨r + c.len, N, false, writeAt buf r c.payload⟩,
         if r + c.len = N + 7 then completionReport ⟨r + c.len, N, false, writeAt buf r c.payload⟩
         else []) := by
  have hacc := appendBmsPacket_accept (buf, r) c.data c.len hfit
  rw [appendLoop_eq_writeAt] at hacc
  rcases hcase with ⟨h0, hd0, hd2, hd3⟩ | ⟨hr, hE⟩
  · subst h0
    simp [bmsNotifyCallback, receiveChunk, reportChunk, hd0, hd2, hd3, hacc]
  · have hr0 : r ≠ 0 := by omega
    subst hE
    simp [bmsNotifyCallback, receiveChunk, reportChunk, hr0, hacc]

/-- A frame fed chunk by chunk: the chunks are stored one after the other and
only the chunk that brings the length to `N + 7` reports. -/
theorem feed_frame (N : Nat) (hN : N ≤ 91) (cs : List Notification) :
    ∀ (c : Notification) (r E : Nat) (buf : Mem),
      (∀ x ∈ c :: cs, 0 < x.len) →
      r + (((c :: cs).map Notification.payload).flatten).length ≤ N + 7 →
      ((r = 0 ∧ c.data 0 = 0xDD ∧ c.data 2 = 0 ∧ (c.data 3).val = N) ∨ (0 < r ∧ E = N)) →
      feed ⟨r, E, false, buf⟩ (c :: cs)
        = (⟨r + (((c :: cs).map Notification.payload).flatten).length, N, false,
              writeAt buf r (((c :: cs).map Notification.payload).flatten)⟩,
           if r + (((c :: cs).map Notification.payload).flatten).length = N + 7 then
             completionReport ⟨r + (((c :: cs).map Notification.payload).flatten).length, N,
               false, writeAt buf r (((c :: cs).map Notification.payload).flatten)⟩
           else []) := by
  induction cs with
  | nil =>
    intro c r E buf _ hle hcase
    have hl : c.payload.length = c.len := bytesOf_length _ _
    simp only [List.map_cons, List.map_nil, List.flatten_cons, List.flatten_nil,
      List.append_nil, hl] at hle ⊢
    simp only [feed]
    rw [bmsNotifyCallback_frame_chunk N r E buf c (by omega) hcase]
    simp
  | cons c2 cs ih =>
    intro c r E buf hpos hle hcase
    have hl : c.payload.length = c.len := bytesOf_length _ _
    have hl2 : c2.payload.length = c2.len := bytesOf_length _ _
    have hc : 0 < c.len := hpos c (by simp)
    have hc2 : 0 < c2.len := hpos c2 (by simp)
    have hpos2 : ∀ x ∈ c2 :: cs, 0 < x.len := fun x hx => hpos x (List.mem_cons_of_mem _ hx)
    have hflat : ((c :: c2 :: cs).map Notification.payload).flatten
        = c.payload ++ ((c2 :: cs).map Notification.payload).flatten := by simp
    have hlen2 : c2.len ≤ (((c2 :: cs).map Notification.payload).flatten).length := by
      simp only [List.map_cons, List.flatten_cons, List.length_append, hl2]
      omega
    rw [hflat] at hle ⊢
    rw [List.length_append, hl] at hle
    have hstep := bmsNotifyCallback_frame_chunk N r E buf c (by omega) hcase
    have hih := ih c2 (r + c.len) N (writeAt buf r c.payload) hpos2 (by omega)
      (Or.inr ⟨by omega, rfl⟩)
    have hne : ¬ (r + c.len = N + 7) := by omega
    rw [if_neg hne] at hstep
    rw [feed, hstep]
    simp only [hih, List.nil_append, List.length_append, hl]
    rw [← hl, writeAt_append, hl, Nat.add_assoc]

/-! ## Reassembler: claims -/

/-- Counterexample to C1 as stated. (1) The logged 15-byte `0x04` frame
(`N = 8`) fed one byte at a time from the initial state: the callback reads
`data[2]` and `data[3]` of the first, one-byte chunk, so the expected length is
not `N`; a 7-byte "complete packet" with a checksum error is reported and the
run ends with 15 bytes received and no valid frame, whereas the same frame fed
as one chunk is reported complete with matching checksums. (2) The 99-byte
frame `longFrame` (`N = 92`) fed as one chunk is rejected by `appendBmsPacket`:
error flag set, nothing stored, no completion. -/
theorem chunk_split_invariance_counterexample :
    (sampleFrame04.length = 8 + 7 ∧ memOfList sampleFrame04 0 = 0xDD
      ∧ memOfList sampleFrame04 2 = 0 ∧ (memOfList sampleFrame04 3).val = 8
      ∧ (sampleFrame04ByteAtATime.map Notification.payload).flatten = sampleFrame04
      ∧ (∀ c ∈ sampleFrame04ByteAtATime, c.len = 1)
      ∧ (feed initialState [Notification.ofList sampleFrame04]).2
          = [Printed.completePacket sampleFrame04,
             Printed.checksumsMatch
               [Decoded.cellVoltages [(1, 3527), (2, 3370), (3, 3412), (4, 3361)]]]
      ∧ (feed initialState sampleFrame04ByteAtATime).2
          = [Printed.completePacket [0xDD, 0x04, 0x00, 0x08, 0x0D, 0xC7, 0x0D],
             Printed.checksumError 65303 3527]
      ∧ (feed initialState sampleFrame04ByteAtATime).1.bmsDataLengthExpected = 0
      ∧ (feed initialState sampleFrame04ByteAtATime).1.bmsDataLengthReceived = 15)
    ∧ (longFrame.length = 92 + 7 ∧ memOfList longFrame 0 = 0xDD
      ∧ memOfList longFrame 2 = 0 ∧ (memOfList longFrame 3).val = 92
      ∧ (feed initialState [Notification.ofList longFrame]).1.bmsDataError = true
      ∧ (feed initialState [Notification.ofList longFrame]).1.bmsDataLengthReceived = 0
      ∧ (feed initialState [Notification.ofList longFrame]).2
          = [Printed.dataError 0 0]) := by
  decide

/-- C1 (amended): for every frame `F` of `N + 7` bytes with `F[0] = 0xDD`,
`F[2] = 0`, `F[3] = N` and `N ≤ 91`, and every cut of `F` into consecutive
non-empty chunks whose first chunk has at least 4 bytes, feeding the chunks in
order from a reset state (received 0, expected 0, error clear) ends in the same
state and prints the same as feeding `F` as one chunk: `N + 7` bytes received,
the first `N + 7` bytes of the buffer equal `F`, and exactly one completion
report, whose checksum verdict and decoded values are those of the final buffer. -/
theorem chunk_split_invariance (s0 : BmsState) (F : List Byte) (N : Nat)
    (chunks : List Notification) (single : Notification)
    (hrecv : s0.bmsDataLengthReceived = 0) (hexp : s0.bmsDataLengthExpected = 0)
    (herr : s0.bmsDataError = false)
    (hlen : F.length = N + 7) (h0 : memOfList F 0 = 0xDD) (h2 : memOfList F 2 = 0)
    (h3 : (memOfList F 3).val = N) (hN : N ≤ 91)
    (hcut : (chunks.map Notification.payload).flatten = F)
    (hne : ∀ c ∈ chunks, 0 < c.len)
    (hfirst : ∀ c ∈ chunks.head?, 4 ≤ c.len)
    (hsingle : single.payload = F) :
    feed s0 chunks = feed s0 [single]
    ∧ (feed s0 chunks).1.bmsDataLengthReceived = N + 7
    ∧ (feed s0 chunks).1.bmsDataLengthExpected = N
    ∧ (feed s0 chunks).1.bmsDataError = false
    ∧ bytesOf (feed s0 chunks).1.bmsDataReceived (N + 7) = F
    ∧ (feed s0 chunks).2 = completionReport (feed s0 chunks).1 := by
  obtain ⟨r, E, e, buf⟩ := s0
  simp only at hrecv hexp herr
  subst hrecv hexp herr
  -- the run on the single chunk
  have hslen : single.len = N + 7 := by
    rw [← hlen, ← hsingle]; exact (bytesOf_length _ _).symm
  have hsF : F = bytesOf single.data single.len ++ [] := by
    rw [List.append_nil]; exact hsingle.symm
  have hs0 : single.data 0 = 0xDD := by
    rw [← h0, hsF]; exact (memOfList_bytesOf_append _ _ _ _ (by omega)).symm
  have hs2 : single.data 2 = 0 := by
    rw [← h2, hsF]; exact (memOfList_bytesOf_append _ _ _ _ (by omega)).symm
  have hs3 : (single.data 3).val = N := by
    rw [← h3, hsF, memOfList_bytesOf_append _ _ _ _ (by omega)]
  have hsflat : (([single] : List Notification).map Notification.payload).flatten = F := by
    simp [hsingle]
  have hS := feed_frame N hN [] single 0 0 buf (by intro x hx; simp at hx; subst hx; omega)
    (by rw [hsflat]; omega) (Or.inl ⟨rfl, hs0, hs2, hs3⟩)
  rw [hsflat] at hS
  -- the run on the cut
  cases chunks with
  | nil =>
    simp only [List.map_nil, List.flatten_nil] at hcut
    subst hcut
    simp at hlen
  | cons c cs =>
    have hc4 : 4 ≤ c.len := hfirst c (by simp)
    have hcF : F = bytesOf c.data c.len ++ (cs.map Notification.payload).flatten := by
      rw [← hcut]; simp [Notification.payload]
    have hc0 : c.data 0 = 0xDD := by
      rw [← h0, hcF]; exact (memOfList_bytesOf_append _ _ _ _ (by omega)).symm
    have hc2 : c.data 2 = 0 := by
      rw [← h2, hcF]; exact (memOfList_bytesOf_append _ _ _ _ (by omega)).symm
    have hc3 : (c.data 3).val = N := by
      rw [← h3, hcF, memOfList_bytesOf_append _ _ _ _ (by omega)]
    have hC := feed_frame N hN cs c 0 0 buf hne (by rw [hcut]; omega)
      (Or.inl ⟨rfl, hc0, hc2, hc3⟩)
    rw [hcut] at hC
    have hfin : 0 + F.length = N + 7 := by omega
    rw [hC, hS]
    simp only [hfin, if_true, true_and, and_true]
    apply List.ext_getElem
    · rw [bytesOf_length, hlen]
    · intro i h1 h2
      rw [bytesOf_length] at h1
      simp only [bytesOf, List.getElem_map, List.getElem_range]
      rw [writeAt_zero_lt _ _ _ (by omega), memOfList, List.getD_eq_getElem _ _ (by omega)]

/-- Witness of C1 (amended): the logged 34-byte `0x03` frame, delivered as the
20-byte and the 14-byte notification of the log, from the initial state. -/
theorem chunk_split_invariance_witness :
    feed initialState
        [Notification.ofList (sampleFrame03.take 20), Notification.ofList (sampleFrame03.drop 20)]
      = feed initialState [Notification.ofList sampleFrame03]
    ∧ (feed initialState
        [Notification.ofList (sampleFrame03.take 20), Notification.ofList (sampleFrame03.drop 20)]
        ).1.bmsDataLengthReceived = 0x1B + 7 :=
  ⟨(chunk_split_invariance initialState sampleFrame03 0x1B
      [Notification.ofList (sampleFrame03.take 20), Notification.ofList (sampleFrame03.drop 20)]
      (Notification.ofList sampleFrame03)
      rfl rfl rfl (by decide) (by decide) (by decide) (by decide) (by decide) (by decide)
      (by decide) (by decide) (by decide)).1,
   (chunk_split_invariance initialState sampleFrame03 0x1B
      [Notification.ofList (sampleFrame03.take 20), Notification.ofList (sampleFrame03.drop 20)]
      (Notification.ofList sampleFrame03)
      rfl rfl rfl (by decide) (by decide) (by decide) (by decide) (by decide) (by decide)
      (by decide) (by decide) (by decide)).2.1⟩

/-- C5: in every state reachable from the initial state by notifications (any
chunk lengths) and resets, `bmsDataLengthReceived ≤ MAX_BMS_DATA_CAPACITY`
(it is a natural number, so `0 ≤` holds), and whenever `appendBmsPacket` accepts
a chunk, the index `bmsDataLengthReceived` used by the write of every iteration
`k < dataLen` of its copy loop is below 100. -/
theorem buffer_capacity_invariant (s : BmsState) (hs : Reachable s) :
    s.bmsDataLengthReceived ≤ MAX_BMS_DATA_CAPACITY
    ∧ ∀ (data : Mem) (len k : Nat),
        (appendBmsPacket (s.bmsDataReceived, s.bmsDataLengthReceived) data len).1 = true →
        k < len →
        (appendLoop data k (s.bmsDataReceived, s.bmsDataLengthReceived)).2
          < MAX_BMS_DATA_CAPACITY := by
  have h := reachable_received_le s hs
  refine ⟨by simp only [MAX_BMS_DATA_CAPACITY]; omega, ?_⟩
  intro data len k hacc hk
  rw [appendLoop_snd]
  simp only [MAX_BMS_DATA_CAPACITY]
  by_cases hc : 99 ≤ len + s.bmsDataLengthReceived
  · rw [appendBmsPacket_reject _ _ _ hc] at hacc
    simp at hacc
  · simp only at hc ⊢
    omega

/-- Witness of C5: the state reached after the first 20-byte chunk of the logged
`0x03` frame; the last write of the second chunk (14 bytes) lands at index 33. -/
theorem buffer_capacity_invariant_witness :
    Reachable (step initialState (Event.notify (Notification.ofList (sampleFrame03.take 20))))
    ∧ (step initialState (Event.notify (Notification.ofList (sampleFrame03.take 20)))
        ).bmsDataLengthReceived ≤ MAX_BMS_DATA_CAPACITY
    ∧ (appendLoop (memOfList (sampleFrame03.drop 20)) 13
        ((step initialState (Event.notify (Notification.ofList (sampleFrame03.take 20)))
          ).bmsDataReceived,
         (step initialState (Event.notify (Notification.ofList (sampleFrame03.take 20)))
          ).bmsDataLengthReceived)).2 < MAX_BMS_DATA_CAPACITY :=
  ⟨Reachable.step _ _ Reachable.init,
   (buffer_capacity_invariant _ (Reachable.step _ _ Reachable.init)).1,
   (buffer_capacity_invariant _ (Reachable.step _ _ Reachable.init)).2
     (memOfList (sampleFrame03.drop 20)) 14 13 (by decide) (by decide)⟩

/-- Counterexample to C6 as stated: in the initial state (buffer empty, error
flag clear) a 101-byte chunk that does not start with `0xDD` would take the
length past 100, yet the error flag stays clear: the chunk is ignored. -/
theorem overflow_rejected_counterexample :
    initialState.bmsDataError = false
    ∧ initialState.bmsDataLengthReceived + (zeroChunk 101).len > MAX_BMS_DATA_CAPACITY
    ∧ (bmsNotifyCallback initialState (zeroChunk 101).data (zeroChunk 101).len
        ).1.bmsDataError = false := by
  decide

/-- C6 (amended): with the error flag clear and
`bmsDataLengthReceived + len > 100`, handling the chunk writes no byte, leaves
`bmsDataLengthReceived` unchanged and triggers no completion, validation or
decoding; it sets `bmsDataError` when the buffer is non-empty or the chunk
starts with `0xDD` (then only the data-error line is printed), and otherwise
ignores the chunk with the flag still clear and nothing printed. -/
theorem overflow_rejected (s : BmsState) (data : Mem) (len : Nat)
    (herr : s.bmsDataError = false)
    (hover : s.bmsDataLengthReceived + len > MAX_BMS_DATA_CAPACITY) :
    (bmsNotifyCallback s data len).1.bmsDataReceived = s.bmsDataReceived
    ∧ (bmsNotifyCallback s data len).1.bmsDataLengthReceived = s.bmsDataLengthReceived
    ∧ ((s.bmsDataLengthReceived ≠ 0 ∨ data 0 = 0xDD) →
        (bmsNotifyCallback s data len).1.bmsDataError = true
        ∧ (bmsNotifyCallback s data len).2
            = [Printed.dataError (data 2) s.bmsDataLengthReceived])
    ∧ (¬ (s.bmsDataLengthReceived ≠ 0 ∨ data 0 = 0xDD) →
        (bmsNotifyCallback s data len).1.bmsDataError = false
        ∧ (bmsNotifyCallback s data len).2 = []) := by
  have hrej : appendBmsPacket (s.bmsDataReceived, s.bmsDataLengthReceived) data len
      = (false, (s.bmsDataReceived, s.bmsDataLengthReceived)) :=
    appendBmsPacket_reject _ _ _ (by simp only [MAX_BMS_DATA_CAPACITY] at hover ⊢; omega)
  by_cases h0 : s.bmsDataLengthReceived = 0
  · by_cases hd : data 0 = 0xDD
    · by_cases h2 : data 2 = 0
      · rw [h0] at hrej
        simp [bmsNotifyCallback, receiveChunk, reportChunk, herr, h0, hd, h2, hrej]
      · simp [bmsNotifyCallback, receiveChunk, reportChunk, herr, h0, hd, h2]
    · simp [bmsNotifyCallback, receiveChunk, reportChunk, herr, h0, hd]
  · simp [bmsNotifyCallback, receiveChunk, reportChunk, herr, h0, hrej]

/-- Witness of C6 (amended): 90 bytes are buffered and a 20-byte chunk arrives. -/
theorem overflow_rejected_witness :
    (bmsNotifyCallback (bmsNotifyCallback initialState
        (Notification.ofList (longFrame.take 90)).data 90).1
        (zeroChunk 20).data 20).1.bmsDataLengthReceived = 90
    ∧ (bmsNotifyCallback (bmsNotifyCallback initialState
        (Notification.ofList (longFrame.take 90)).data 90).1
        (zeroChunk 20).data 20).1.bmsDataError = true :=
  ⟨((overflow_rejected (bmsNotifyCallback initialState
        (Notification.ofList (longFrame.take 90)).data 90).1
      (zeroChunk 20).data 20 (by decide) (by decide)).2.1).trans (by decide),
   ((overflow_rejected (bmsNotifyCallback initialState
        (Notification.ofList (longFrame.take 90)).data 90).1
      (zeroChunk 20).data 20 (by decide) (by decide)).2.2.1 (Or.inl (by decide))).1⟩

theorem feed_error (cs : List Notification) (s : BmsState) (h : s.bmsDataError = true) :
    feed s cs = (s, []) := by
  induction cs with
  | nil => rfl
  | cons c cs ih => simp [feed, bmsNotifyCallback, h, ih]

/-- C7: once `bmsDataError` is true, any number of further chunks leave the
whole state unchanged and print nothing (no completion, validation or
decoding); the reset of `loop` clears the flag and both lengths, after which a
chunk that starts a frame (`0xDD`, status 0, fewer than 99 bytes) is appended. -/
theorem error_flag_sticky (s : BmsState) (cs : List Notification)
    (h : s.bmsDataError = true) :
    feed s cs = (s, [])
    ∧ (∀ (data : Mem) (len : Nat), bmsNotifyCallback s data len = (s, []))
    ∧ (loopReset s).bmsDataError = false
    ∧ (loopReset s).bmsDataLengthReceived = 0
    ∧ (loopReset s).bmsDataLengthExpected = 0
    ∧ (∀ (data : Mem) (len : Nat), data 0 = 0xDD → data 2 = 0 → len < 99 →
        (bmsNotifyCallback (loopReset s) data len).1.bmsDataError = false
        ∧ (bmsNotifyCallback (loopReset s) data len).1.bmsDataLengthReceived = len) := by
  refine ⟨feed_error cs s h, ?_, rfl, rfl, rfl, ?_⟩
  · intro data len
    simp [bmsNotifyCallback, h]
  · intro data len h0 h2 hlen
    have hacc := appendBmsPacket_accept (s.bmsDataReceived, 0) data len (by simpa using hlen)
    simp [bmsNotifyCallback, receiveChunk, loopReset, h0, h2, hacc, appendLoop_snd]

/-- Witness of C7: the state after a first chunk with status `0x80`; the logged
`0x04` frame that follows is dropped. -/
theorem error_flag_sticky_witness :
    (bmsNotifyCallback initialState faultChunk.data faultChunk.len).1.bmsDataError = true
    ∧ feed (bmsNotifyCallback initialState faultChunk.data faultChunk.len).1
        [Notification.ofList sampleFrame04]
      = ((bmsNotifyCallback initialState faultChunk.data faultChunk.len).1, []) :=
  ⟨by decide,
   (error_flag_sticky (bmsNotifyCallback initialState faultChunk.data faultChunk.len).1
      [Notification.ofList sampleFrame04] (by decide)).1⟩

/-- Counterexample to C8 as stated: the 99-byte frame `longFrame` arrives as one
first chunk with `chunk[0] = 0xDD` and status `chunk[2] = 0`, and is not
appended: the length stays 0 and the error flag is set. -/
theorem bms_fault_short_circuits_counterexample :
    initialState.bmsDataLengthReceived = 0 ∧ initialState.bmsDataError = false
    ∧ (Notification.ofList longFrame).data 0 = 0xDD
    ∧ (Notification.ofList longFrame).data 2 = 0
    ∧ (bmsNotifyCallback initialState (Notification.ofList longFrame).data
        (Notification.ofList longFrame).len).1.bmsDataLengthReceived = 0
    ∧ (bmsNotifyCallback initialState (Notification.ofList longFrame).data
        (Notification.ofList longFrame).len).1.bmsDataError = true := by
  decide

/-- C8 (amended): for a first chunk (buffer empty, error flag clear,
`chunk[0] = 0xDD`): if `chunk[2]` is nonzero the error flag is set, nothing is
appended (length stays 0, buffer unchanged) and only the data-error line is
printed (no validation, no decoding); if `chunk[2]` is 0 the expected length
becomes `chunk[3]`, and the chunk is appended when it has at most 98 bytes,
while a longer chunk is not appended and sets the error flag. -/
theorem bms_fault_short_circuits (s : BmsState) (data : Mem) (len : Nat)
    (hempty : s.bmsDataLengthReceived = 0) (herr : s.bmsDataError = false)
    (hstart : data 0 = 0xDD) :
    (data 2 ≠ 0 →
        (bmsNotifyCallback s data len).1.bmsDataError = true
        ∧ (bmsNotifyCallback s data len).1.bmsDataLengthReceived = 0
        ∧ (bmsNotifyCallback s data len).1.bmsDataReceived = s.bmsDataReceived
        ∧ (bmsNotifyCallback s data len).2 = [Printed.dataError (data 2) 0])
    ∧ (data 2 = 0 →
        (bmsNotifyCallback s data len).1.bmsDataLengthExpected = (data 3).val
        ∧ (len ≤ 98 →
            (bmsNotifyCallback s data len).1.bmsDataError = false
            ∧ (bmsNotifyCallback s data len).1.bmsDataLengthReceived = len
            ∧ (∀ i, i < len → (bmsNotifyCallback s data len).1.bmsDataReceived i = data i)
            ∧ (∀ i, len ≤ i →
                (bmsNotifyCallback s data len).1.bmsDataReceived i = s.bmsDataReceived i))
        ∧ (98 < len →
            (bmsNotifyCallback s data len).1.bmsDataError = true
            ∧ (bmsNotifyCallback s data len).1.bmsDataLengthReceived = 0
            ∧ (bmsNotifyCallback s data len).1.bmsDataReceived = s.bmsDataReceived)) := by
  constructor
  · intro h2
    simp [bmsNotifyCallback, receiveChunk, reportChunk, herr, hempty, hstart, h2]
  · intro h2
    refine ⟨?_, ?_, ?_⟩
    · simp only [bmsNotifyCallback, receiveChunk, herr, hempty, hstart, h2]
      simp
    · intro hlen
      have hacc := appendBmsPacket_accept (s.bmsDataReceived, 0) data len (by simpa using by omega)
      refine ⟨?_, ?_, ?_, ?_⟩
      · simp [bmsNotifyCallback, receiveChunk, herr, hempty, hstart, h2, hacc]
      · simp [bmsNotifyCallback, receiveChunk, herr, hempty, hstart, h2, hacc, appendLoop_snd]
      · intro i hi
        simp [bmsNotifyCallback, receiveChunk, herr, hempty, hstart, h2, hacc, appendLoop_fst, hi]
      · intro i hi
        have hi2 : ¬ (i < len) := by omega
        simp [bmsNotifyCallback, receiveChunk, herr, hempty, hstart, h2, hacc, appendLoop_fst,
          hi2]
    · intro hlen
      have hrej := appendBmsPacket_reject (s.bmsDataReceived, 0) data len (by simpa using by omega)
      simp [bmsNotifyCallback, receiveChunk, herr, hempty, hstart, h2, hrej]

/-- Witness of C8 (amended): the first 20-byte chunk of the logged `0x03` frame
in the initial state sets the expected length to `0x1B` and is appended. -/
theorem bms_fault_short_circuits_witness :
    (bmsNotifyCallback initialState (Notification.ofList (sampleFrame03.take 20)).data 20
        ).1.bmsDataLengthExpected = 0x1B
    ∧ (bmsNotifyCallback initialState (Notification.ofList (sampleFrame03.take 20)).data 20
        ).1.bmsDataLengthReceived = 20 :=
  ⟨((bms_fault_short_circuits initialState (Notification.ofList (sampleFrame03.take 20)).data 20
      (by decide) (by decide) (by decide)).2 (by decide)).1,
   (((bms_fault_short_circuits initialState (Notification.ofList (sampleFrame03.take 20)).data 20
      (by decide) (by decide) (by decide)).2 (by decide)).2.1 (by decide)).2.1⟩

/-- Counterexample to C9 as stated: the second chunk of the logged `0x03` frame
(first byte `0x00`) arrives while the buffer is empty; the outcome is
`Continuing`, not `Error`: the error flag stays clear and nothing is printed. -/
theorem malformed_start_counterexample :
    initialState.bmsDataLengthReceived = 0 ∧ initialState.bmsDataError = false
    ∧ (Notification.ofList (sampleFrame03.drop 20)).data 0 ≠ 0xDD
    ∧ appendOutcome (bmsNotifyCallback initialState
        (Notification.ofList (sampleFrame03.drop 20)).data 14) = AppendOutcome.Continuing
    ∧ (bmsNotifyCallback initialState
        (Notification.ofList (sampleFrame03.drop 20)).data 14).1.bmsDataError = false := by
  decide

/-- C9 (amended): a chunk that arrives while the buffer is empty (error flag
clear) and whose first byte is not `0xDD` is ignored: the whole state is
unchanged, so nothing is appended and the error flag stays clear, nothing is
printed, and the outcome is `Continuing`. -/
theorem malformed_start_ignored (s : BmsState) (data : Mem) (len : Nat)
    (hempty : s.bmsDataLengthReceived = 0) (herr : s.bmsDataError = false)
    (hstart : data 0 ≠ 0xDD) :
    bmsNotifyCallback s data len = (s, [])
    ∧ appendOutcome (bmsNotifyCallback s data len) = AppendOutcome.Continuing := by
  have h : bmsNotifyCallback s data len = (s, []) := by
    simp [bmsNotifyCallback, receiveChunk, reportChunk, herr, hempty, hstart]
  refine ⟨h, ?_⟩
  rw [h]
  simp [appendOutcome, herr]

/-- Witness of C9 (amended): the second chunk of the logged `0x03` frame, handled
in the initial state. -/
theorem malformed_start_ignored_witness :
    bmsNotifyCallback initialState (Notification.ofList (sampleFrame03.drop 20)).data 14
      = (initialState, []) :=
  (malformed_start_ignored initialState (Notification.ofList (sampleFrame03.drop 20)).data 14
    (by decide) (by decide) (by decide)).1

/-! ## Decoder: claims -/

/-- C10: for a frame with command byte `0x04` and `N = frame[3]`, the decoder
prints exactly one block, the cell voltages, with `N / 2` lines in order; line
`i` (0-based) is labelled `i + 1` and carries the unsigned big-endian value
`frame[4+2i]*256 + frame[5+2i]` in millivolts (a trailing odd byte is not read). -/
theorem cell_voltage_decoding (frame : Mem) (hcmd : frame 1 = 0x04) :
    printBmsDataReceived frame = [Decoded.cellVoltages (printCellVoltages frame)]
    ∧ (printCellVoltages frame).length = (frame 3).val / 2
    ∧ ∀ i, i < (frame 3).val / 2 →
        (printCellVoltages frame)[i]?
          = some (i + 1, (frame (4 + 2 * i)).val * 256 + (frame (5 + 2 * i)).val) := by
  refine ⟨?_, ?_, ?_⟩
  · simp [printBmsDataReceived, hcmd]
  · simp [printCellVoltages]
  · intro i hi
    simp [printCellVoltages, cellLine, hi]

/-- Witness of C10: payload `0B 5F 0B 5B` (`N = 4`) decodes to cell 1 = 2911 mV
and cell 2 = 2907 mV. -/
theorem cell_voltage_decoding_witness :
    memOfList twoCellFrame 1 = 0x04
    ∧ printBmsDataReceived (memOfList twoCellFrame)
        = [Decoded.cellVoltages [(1, 2911), (2, 2907)]] :=
  ⟨by decide, (cell_voltage_decoding (memOfList twoCellFrame) (by decide)).1.trans (by decide)⟩

theorem printBmsDataReceived_03 (frame : Mem) (hcmd : frame 1 = 0x03) :
    printBmsDataReceived frame = [Decoded.packSummary (printPackSummary frame)] := by
  simp [printBmsDataReceived, hcmd]

/-- Counterexample to C11 as stated: with current bytes `FF FF` the decoded
current is 65535 centiamps, while the two's-complement reading is -1. -/
theorem current_signed_counterexample :
    memOfList negativeCurrentFrame 1 = 0x03
    ∧ getIsChecksumValidForReceivedData (memOfList negativeCurrentFrame) = true
    ∧ (memOfList negativeCurrentFrame 6).val * 256 + (memOfList negativeCurrentFrame 7).val
        = 0xFFFF
    ∧ twosComplement16 0xFFFF = -1
    ∧ (printPackSummary (memOfList negativeCurrentFrame)).current = 65535
    ∧ (((printPackSummary (memOfList negativeCurrentFrame)).current : Nat) : Int)
        ≠ twosComplement16 0xFFFF := by
  decide

/-- C11 (amended): for every pack-summary frame (command `0x03`) the decoded
current in centiamps is the unsigned big-endian value of frame bytes 6 and 7,
between 0 and 65535: raw values `0x0000..0x7FFF` decode to themselves, which is
their two's-complement reading, and raw values `0x8000..0xFFFF` decode to
themselves as well, 65536 above their two's-complement reading. -/
theorem current_decoded_unsigned (frame : Mem) (hcmd : frame 1 = 0x03) :
    printBmsDataReceived frame = [Decoded.packSummary (printPackSummary frame)]
    ∧ (printPackSummary frame).current = (frame 6).val * 256 + (frame 7).val
    ∧ (printPackSummary frame).current < 0x10000
    ∧ ((frame 6).val * 256 + (frame 7).val < 0x8000 →
        (((printPackSummary frame).current : Nat) : Int)
          = twosComplement16 ((frame 6).val * 256 + (frame 7).val))
    ∧ (0x8000 ≤ (frame 6).val * 256 + (frame 7).val →
        (((printPackSummary frame).current : Nat) : Int)
          = twosComplement16 ((frame 6).val * 256 + (frame 7).val) + 0x10000) := by
  have h6 : (frame 6).val < 256 := (frame 6).isLt
  have h7 : (frame 7).val < 256 := (frame 7).isLt
  refine ⟨printBmsDataReceived_03 frame hcmd, rfl, ?_, ?_, ?_⟩
  · show (frame 6).val * 256 + (frame 7).val < 0x10000
    omega
  · intro h
    show (((frame 6).val * 256 + (frame 7).val : Nat) : Int) = _
    simp only [twosComplement16, if_pos h]
  · intro h
    have hn : ¬ ((frame 6).val * 256 + (frame 7).val < 0x8000) := by omega
    show (((frame 6).val * 256 + (frame 7).val : Nat) : Int) = _
    simp only [twosComplement16, if_neg hn]
    omega

/-- Witness of C11 (amended): the frame with current bytes `FF FF`. -/
theorem current_decoded_unsigned_witness :
    memOfList negativeCurrentFrame 1 = 0x03
    ∧ (printPackSummary (memOfList negativeCurrentFrame)).current
        = (memOfList negativeCurrentFrame 6).val * 256
          + (memOfList negativeCurrentFrame 7).val :=
  ⟨by decide, (current_decoded_unsigned (memOfList negativeCurrentFrame) (by decide)).2.1⟩

/-- C12: for every pack-summary frame with sensor count `T = frame[26]` the
decoder reports exactly `T` temperatures in order; the line of sensor `i`
(0-based, labelled `i + 1`) carries, in tenths of a degree Celsius, the signed
integer `(frame[27+2i]*256 + frame[28+2i]) - 2731`, negative whenever the raw
value is below 2731. -/
theorem temperature_decoding (frame : Mem) (hcmd : frame 1 = 0x03) :
    printBmsDataReceived frame = [Decoded.packSummary (printPackSummary frame)]
    ∧ (printPackSummary frame).numberOfTemperatureSensors = (frame 26).val
    ∧ (printPackSummary frame).temperatures.length = (frame 26).val
    ∧ ∀ i, i < (frame 26).val →
        (printPackSummary frame).temperatures[i]?
          = some (i + 1,
              (((frame (27 + 2 * i)).val * 256 + (frame (28 + 2 * i)).val : Nat) : Int) - 2731)
        ∧ ((frame (27 + 2 * i)).val * 256 + (frame (28 + 2 * i)).val < 2731 →
            (((frame (27 + 2 * i)).val * 256 + (frame (28 + 2 * i)).val : Nat) : Int) - 2731
              < 0) := by
  refine ⟨printBmsDataReceived_03 frame hcmd, rfl, ?_, ?_⟩
  · simp [printPackSummary]
  · intro i hi
    refine ⟨?_, fun h => by omega⟩
    simp [printPackSummary, temperatureLine, hi, Nat.mul_comm i 2]

/-- Witness of C12: the logged `0x03` frame has two sensors; raw `0x0B5F` gives
180 (18.0 C) and raw `0x0B5B` gives 176. -/
theorem temperature_decoding_witness :
    memOfList sampleFrame03 1 = 0x03
    ∧ (printPackSummary (memOfList sampleFrame03)).temperatures.length = 2
    ∧ (printPackSummary (memOfList sampleFrame03)).temperatures[0]? = some (1, 180) :=
  ⟨by decide,
   (temperature_decoding (memOfList sampleFrame03) (by decide)).2.2.1,
   ((temperature_decoding (memOfList sampleFrame03) (by decide)).2.2.2 0 (by decide)).1⟩

theorem unpack_date (y m d : Nat) (hm : m ≤ 15) (hd : d ≤ 31) :
    (y * 512 + m * 32 + d) >>> 9 = y
    ∧ ((y * 512 + m * 32 + d) >>> 5) &&& 0x0F = m
    ∧ (y * 512 + m * 32 + d) &&& 0x1F = d := by
  have e4 : (0x0F : Nat) = 2 ^ 4 - 1 := by norm_num
  have e5 : (0x1F : Nat) = 2 ^ 5 - 1 := by norm_num
  rw [e4, e5, Nat.and_pow_two_sub_one_eq_mod, Nat.and_pow_two_sub_one_eq_mod,
    Nat.shiftRight_eq_div_pow, Nat.shiftRight_eq_div_pow]
  norm_num
  omega

/-- C13: for every year offset `y` in `0..127`, month `m` in `0..15` and day `d`
in `0..31`, a pack-summary frame whose bytes 14..15 hold the big-endian value
`y*512 + m*32 + d` decodes to year `2000 + y`, month `m`, day `d` (two bytes
hold at most `0xFFFF`, so `y ≤ 127` needs no hypothesis of its own). -/
theorem production_date_unpacking (frame : Mem) (y m d : Nat)
    (hcmd : frame 1 = 0x03) (hm : m ≤ 15) (hd : d ≤ 31)
    (hdate : (frame 14).val * 256 + (frame 15).val = y * 512 + m * 32 + d) :
    printBmsDataReceived frame = [Decoded.packSummary (printPackSummary frame)]
    ∧ (printPackSummary frame).year = 2000 + y
    ∧ (printPackSummary frame).month = m
    ∧ (printPackSummary frame).day = d := by
  have hlt : (y * 512 + m * 32 + d) % 65536 = y * 512 + m * 32 + d := by omega
  obtain ⟨h1, h2, h3⟩ := unpack_date y m d hm hd
  refine ⟨printBmsDataReceived_03 frame hcmd, ?_, ?_, ?_⟩
  · show ((((frame 14).val * 256 + (frame 15).val) % 65536) >>> 9) + 2000 = 2000 + y
    rw [hdate, hlt, h1]
    omega
  · show ((((frame 14).val * 256 + (frame 15).val) % 65536) >>> 5) &&& 0x0F = m
    rw [hdate, hlt, h2]
  · show (((frame 14).val * 256 + (frame 15).val) % 65536) &&& 0x1F = d
    rw [hdate, hlt, h3]

/-- Witness of C13: bytes 14..15 of the logged `0x03` frame are `2A A7`, that is
`21*512 + 5*32 + 7`, and decode to 2021/05/07. -/
theorem production_date_unpacking_witness :
    (memOfList sampleFrame03 14).val * 256 + (memOfList sampleFrame03 15).val = 0x2AA7
    ∧ (printPackSummary (memOfList sampleFrame03)).year = 2021
    ∧ (printPackSummary (memOfList sampleFrame03)).month = 5
    ∧ (printPackSummary (memOfList sampleFrame03)).day = 7 :=
  ⟨by decide,
   (production_date_unpacking (memOfList sampleFrame03) 21 5 7 (by decide) (by decide)
      (by decide) (by decide)).2⟩

theorem bit7_of_byte (b : Byte) : (b.val >>> 7) &&& 0x01 = 1 ↔ 128 ≤ b.val := by
  have hb : b.val < 256 := b.isLt
  rw [Nat.and_one_is_mod, Nat.shiftRight_eq_div_pow]
  norm_num
  omega

/-- C14: for every pack-summary frame with cell count `C = frame[25]` the
decoder reports exactly `C` balancing statuses; cell `i` (`0 ≤ i < C`, labelled
`i`) reads "balancing" exactly when
`((frame[16 + i/8] >> (7 - i mod 8)) & 1) = 1`; cell 0 is bit 7 of `frame[16]`
and cell 8 is bit 7 of `frame[17]`. -/
theorem balancing_msb_first (frame : Mem) (hcmd : frame 1 = 0x03) :
    printBmsDataReceived frame = [Decoded.packSummary (printPackSummary frame)]
    ∧ (printPackSummary frame).numberOfCells = (frame 25).val
    ∧ (printPackSummary frame).balancing.length = (frame 25).val
    ∧ (∀ i, i < (frame 25).val →
        (printPackSummary frame).balancing[i]?
          = some (i, decide (((frame (16 + i / 8)).val >>> (7 - i % 8)) &&& 1 = 1)))
    ∧ (0 < (frame 25).val →
        (printPackSummary frame).balancing[0]? = some (0, decide (128 ≤ (frame 16).val)))
    ∧ (8 < (frame 25).val →
        (printPackSummary frame).balancing[8]? = some (8, decide (128 ≤ (frame 17).val))) := by
  have hall : ∀ i, i < (frame 25).val →
      (printPackSummary frame).balancing[i]?
        = some (i, decide (((frame (16 + i / 8)).val >>> (7 - i % 8)) &&& 1 = 1)) := by
    intro i hi
    simp [printPackSummary, balancingLine, hi]
  refine ⟨printBmsDataReceived_03 frame hcmd, rfl, ?_, hall, ?_, ?_⟩
  · simp [printPackSummary]
  · intro h
    rw [hall 0 h]
    have hb := bit7_of_byte (frame 16)
    simp only [Nat.zero_div, Nat.add_zero, Nat.zero_mod, Nat.sub_zero]
    simp only [hb]
  · intro h
    rw [hall 8 h]
    have hb := bit7_of_byte (frame 17)
    have e1 : 16 + 8 / 8 = 17 := by norm_num
    have e2 : 7 - 8 % 8 = 7 := by norm_num
    simp only [e1, e2, hb]

/-- Witness of C14: the logged `0x03` frame (4 cells) with byte 16 set to
`0x80`: cell 0 is balancing. -/
theorem balancing_msb_first_witness :
    setByte (memOfList sampleFrame03) 16 0x80 1 = 0x03
    ∧ (printPackSummary (setByte (memOfList sampleFrame03) 16 0x80)).balancing.length = 4
    ∧ (printPackSummary (setByte (memOfList sampleFrame03) 16 0x80)).balancing[0]?
        = some (0, true) :=
  ⟨by decide,
   (balancing_msb_first (setByte (memOfList sampleFrame03) 16 0x80) (by decide)).2.2.1,
   ((balancing_msb_first (setByte (memOfList sampleFrame03) 16 0x80) (by decide)).2.2.2.2.1
      (by decide)).trans (by decide)⟩

set_option maxRecDepth 8000 in
/-- Counterexample to C15 as stated: `overlongCountFrame` is a checksum-valid
pack-summary frame with `N = 27` and sensor count 3, so `27 + 2*3 > 4 + N`; the
decoder reports no error and produces a record with three temperatures, the
third read from the checksum bytes 31..32 (`FB 46`, giving 61595). Received as
one chunk, the frame is reported complete and its checksum matches. -/
theorem truncated_counts_counterexample :
    memOfList overlongCountFrame 1 = 0x03
    ∧ getIsChecksumValidForReceivedData (memOfList overlongCountFrame) = true
    ∧ 27 + 2 * (memOfList overlongCountFrame 26).val
        > 4 + (memOfList overlongCountFrame 3).val
    ∧ printBmsDataReceived (memOfList overlongCountFrame)
        = [Decoded.packSummary (printPackSummary (memOfList overlongCountFrame))]
    ∧ (printPackSummary (memOfList overlongCountFrame)).temperatures
        = [(1, 180), (2, 176), (3, 61595)]
    ∧ appendOutcome (bmsNotifyCallback initialState
        (Notification.ofList overlongCountFrame).data 34) = AppendOutcome.FrameComplete
    ∧ getIsChecksumValidForReceivedData (bmsNotifyCallback initialState
        (Notification.ofList overlongCountFrame).data 34).1.bmsDataReceived = true
    ∧ (printPackSummary (bmsNotifyCallback initialState
        (Notification.ofList overlongCountFrame).data 34).1.bmsDataReceived).temperatures
        = [(1, 180), (2, 176), (3, 61595)] := by
  decide

/-- C15 (amended): the decoder has no Truncated outcome. For every complete
buffer that holds a checksum-valid pack-summary frame, whatever the counts at
bytes 25 and 26, the completion report is "checksums match" followed by exactly
one record, with `frame[25]` balancing lines and `frame[26]` temperature lines;
temperature `i` is read from offsets `27+2i` and `28+2i` of the buffer also when
these lie past the end of the frame. -/
theorem overlong_counts_decoded (s : BmsState)
    (hcmd : s.bmsDataReceived 1 = 0x03)
    (hvalid : getIsChecksumValidForReceivedData s.bmsDataReceived = true) :
    completionReport s
      = [Printed.completePacket (bytesOf s.bmsDataReceived s.bmsDataLengthReceived),
         Printed.checksumsMatch
           [Decoded.packSummary (printPackSummary s.bmsDataReceived)]]
    ∧ (printPackSummary s.bmsDataReceived).balancing.length = (s.bmsDataReceived 25).val
    ∧ (printPackSummary s.bmsDataReceived).temperatures.length = (s.bmsDataReceived 26).val
    ∧ ∀ i, i < (s.bmsDataReceived 26).val →
        4 + (s.bmsDataReceived 3).val < 28 + 2 * i →
        (printPackSummary s.bmsDataReceived).temperatures[i]?
          = some (i + 1,
              (((s.bmsDataReceived (27 + 2 * i)).val * 256
                + (s.bmsDataReceived (28 + 2 * i)).val : Nat) : Int) - 2731) := by
  refine ⟨?_, ?_, ?_, ?_⟩
  · simp [completionReport, hvalid, printBmsDataReceived_03 _ hcmd]
  · simp [printPackSummary]
  · simp [printPackSummary]
  · intro i hi _
    simp [printPackSummary, temperatureLine, hi, Nat.mul_comm i 2]

/-- Witness of C15 (amended): `overlongCountFrame` received as one chunk. -/
theorem overlong_counts_decoded_witness :
    getIsChecksumValidForReceivedData
        (feed initialState [Notification.ofList overlongCountFrame]).1.bmsDataReceived = true
    ∧ (printPackSummary
        (feed initialState [Notification.ofList overlongCountFrame]).1.bmsDataReceived
        ).temperatures.length = 3
    ∧ (printPackSummary
        (feed initialState [Notification.ofList overlongCountFrame]).1.bmsDataReceived
        ).temperatures[2]? = some (3, 61595) :=
  ⟨by decide,
   (overlong_counts_decoded (feed initialState [Notification.ofList overlongCountFrame]).1
      (by decide) (by decide)).2.2.1,
   ((overlong_counts_decoded (feed initialState [Notification.ofList overlongCountFrame]).1
      (by decide) (by decide)).2.2.2 2 (by decide) (by decide)).trans (by decide)⟩

/-! ## Reassembler: completion -/

theorem completionReport_shape (s : BmsState) :
    (∃ h d, completionReport s = [Printed.completePacket h, Printed.checksumsMatch d])
    ∨ (∃ h a b, completionReport s = [Printed.completePacket h, Printed.checksumError a b]) := by
  unfold completionReport
  split
  · exact Or.inl ⟨_, _, rfl⟩
  · exact Or.inr ⟨_, _, _, rfl⟩

/-- What one call prints: nothing, the data-error line (error flag set), or the
completion report of the new state, which then passes the completion test. -/
theorem bmsNotifyCallback_output (s : BmsState) (data : Mem) (len : Nat) :
    (bmsNotifyCallback s data len).2 = []
    ∨ ((∃ b n, (bmsNotifyCallback s data len).2 = [Printed.dataError b n])
        ∧ (bmsNotifyCallback s data len).1.bmsDataError = true)
    ∨ ((bmsNotifyCallback s data len).2 = completionReport (bmsNotifyCallback s data len).1
        ∧ s.bmsDataError = false
        ∧ (bmsNotifyCallback s data len).1.bmsDataError = false
        ∧ (bmsNotifyCallback s data len).1.bmsDataLengthReceived
            = (bmsNotifyCallback s data len).1.bmsDataLengthExpected + 7) := by
  unfold bmsNotifyCallback
  by_cases he : s.bmsDataError = true
  · simp [he]
  · have he2 : s.bmsDataError = false := by simpa using he
    simp only [he2, Bool.false_eq_true, if_false]
    unfold reportChunk
    by_cases h1 : (receiveChunk s data len).bmsDataError = true
    · right; left
      simp [h1]
    · have h1f : (receiveChunk s data len).bmsDataError = false := by simpa using h1
      by_cases h2 : (receiveChunk s data len).bmsDataLengthReceived
          = (receiveChunk s data len).bmsDataLengthExpected + 7
      · right; right
        simp [h1f, h2]
      · left
        simp [h1f, h2]

theorem reportsCompletion_cases (s : BmsState) (data : Mem) (len : Nat) :
    (reportsCompletion (bmsNotifyCallback s data len).2 = false
      ∧ List.countP Printed.isCompletePacket (bmsNotifyCallback s data len).2 = 0
      ∧ List.countP Printed.isVerdict (bmsNotifyCallback s data len).2 = 0
      ∧ List.countP Printed.isRecord (bmsNotifyCallback s data len).2 = 0
      ∧ (appendOutcome (bmsNotifyCallback s data len) = AppendOutcome.Continuing
          ∨ appendOutcome (bmsNotifyCallback s data len) = AppendOutcome.Error))
    ∨ (reportsCompletion (bmsNotifyCallback s data len).2 = true
      ∧ List.countP Printed.isCompletePacket (bmsNotifyCallback s data len).2 = 1
      ∧ List.countP Printed.isVerdict (bmsNotifyCallback s data len).2 = 1
      ∧ List.countP Printed.isRecord (bmsNotifyCallback s data len).2 ≤ 1
      ∧ s.bmsDataError = false
      ∧ (bmsNotifyCallback s data len).1.bmsDataError = false
      ∧ (bmsNotifyCallback s data len).1.bmsDataLengthReceived
          = (bmsNotifyCallback s data len).1.bmsDataLengthExpected + 7) := by
  rcases bmsNotifyCallback_output s data len with h | ⟨⟨b, n, h⟩, he⟩ | ⟨h, hs, he, hc⟩
  · left
    by_cases hf : (bmsNotifyCallback s data len).1.bmsDataError = true
    · simp [h, reportsCompletion, appendOutcome, hf]
    · simp [h, reportsCompletion, appendOutcome, hf]
  · left
    simp [h, reportsCompletion, appendOutcome, he, Printed.isCompletePacket, Printed.isVerdict,
      Printed.isRecord]
  · right
    rcases completionReport_shape (bmsNotifyCallback s data len).1 with ⟨x, d, hr⟩ | ⟨x, a, b, hr⟩
    · rw [h, hr]
      simp [reportsCompletion, Printed.isCompletePacket, Printed.isVerdict, Printed.isRecord,
        hs, he, hc]
    · rw [h, hr]
      simp [reportsCompletion, Printed.isCompletePacket, Printed.isVerdict, Printed.isRecord,
        hs, he, hc]

/-- A call that leaves the error flag clear either appended the whole chunk or
ignored it (buffer empty, first byte not `0xDD`). -/
theorem receiveChunk_noerror (s : BmsState) (data : Mem) (len : Nat)
    (h1 : (receiveChunk s data len).bmsDataError = false) :
    ((receiveChunk s data len).bmsDataLengthReceived = s.bmsDataLengthReceived + len
      ∧ (s.bmsDataLengthReceived ≠ 0 →
          (receiveChunk s data len).bmsDataLengthExpected = s.bmsDataLengthExpected))
    ∨ (receiveChunk s data len = s ∧ s.bmsDataLengthReceived = 0) := by
  by_cases hacc : len + s.bmsDataLengthReceived < 99
  · have ha := appendBmsPacket_accept (s.bmsDataReceived, s.bmsDataLengthReceived) data len hacc
    by_cases h0 : s.bmsDataLengthReceived = 0
    · by_cases hd : data 0 = 0xDD
      · by_cases h2 : data 2 = 0
        · left
          rw [h0] at ha
          simp [receiveChunk, h0, hd, h2, ha, appendLoop_snd]
        · simp [receiveChunk, h0, hd, h2] at h1
      · right
        simp [receiveChunk, h0, hd]
    · left
      simp [receiveChunk, h0, ha, appendLoop_snd]
  · have hr := appendBmsPacket_reject (s.bmsDataReceived, s.bmsDataLengthReceived) data len
      (by omega)
    by_cases h0 : s.bmsDataLengthReceived = 0
    · by_cases hd : data 0 = 0xDD
      · by_cases h2 : data 2 = 0
        · rw [h0] at hr
          simp [receiveChunk, h0, hd, h2, hr] at h1
        · simp [receiveChunk, h0, hd, h2] at h1
      · right
        simp [receiveChunk, h0, hd]
    · simp [receiveChunk, h0, hr] at h1

theorem bmsNotifyCallback_fst (s : BmsState) (data : Mem) (len : Nat)
    (he : s.bmsDataError = false) :
    (bmsNotifyCallback s data len).1 = receiveChunk s data len := by
  simp [bmsNotifyCallback, he]

/-- A chunk that completes a frame was appended in full. -/
theorem completion_appends (s : BmsState) (data : Mem) (len : Nat)
    (hc : reportsCompletion (bmsNotifyCallback s data len).2 = true) :
    s.bmsDataError = false
    ∧ (bmsNotifyCallback s data len).1.bmsDataError = false
    ∧ (bmsNotifyCallback s data len).1.bmsDataLengthReceived
        = (bmsNotifyCallback s data len).1.bmsDataLengthExpected + 7
    ∧ (bmsNotifyCallback s data len).1.bmsDataLengthReceived = s.bmsDataLengthReceived + len := by
  rcases reportsCompletion_cases s data len with ⟨hf, _⟩ | ⟨_, _, _, _, hs, he, hr⟩
  · rw [hf] at hc; simp at hc
  · refine ⟨hs, he, hr, ?_⟩
    rw [bmsNotifyCallback_fst s data len hs] at he hr ⊢
    rcases receiveChunk_noerror s data len he with ⟨h, _⟩ | ⟨h, h0⟩
    · exact h
    · rw [h] at hr
      omega

/-- From a spent state a non-empty chunk reports no completion and leaves a
spent state. -/
theorem spent_step (s : BmsState) (data : Mem) (len : Nat) (hs : Spent s) (hlen : 0 < len) :
    Spent (bmsNotifyCallback s data len).1
    ∧ reportsCompletion (bmsNotifyCallback s data len).2 = false := by
  by_cases he : s.bmsDataError = true
  · have h : bmsNotifyCallback s data len = (s, []) := by simp [bmsNotifyCallback, he]
    rw [h]
    exact ⟨hs, rfl⟩
  · have hef : s.bmsDataError = false := by simpa using he
    rcases hs with h | ⟨hpos, hge⟩
    · exact absurd h he
    · by_cases h1 : (bmsNotifyCallback s data len).1.bmsDataError = true
      · refine ⟨Or.inl h1, ?_⟩
        rcases reportsCompletion_cases s data len with ⟨hf, _⟩ | ⟨_, _, _, _, _, he1, _⟩
        · exact hf
        · rw [he1] at h1; simp at h1
      · have h1f : (bmsNotifyCallback s data len).1.bmsDataError = false := by simpa using h1
        have hrc := h1f
        rw [bmsNotifyCallback_fst s data len hef] at hrc
        have hst : (bmsNotifyCallback s data len).1.bmsDataLengthReceived
              = s.bmsDataLengthReceived + len
            ∧ (bmsNotifyCallback s data len).1.bmsDataLengthExpected
              = s.bmsDataLengthExpected := by
          rw [bmsNotifyCallback_fst s data len hef]
          rcases receiveChunk_noerror s data len hrc with ⟨h, hE⟩ | ⟨_, h0⟩
          · exact ⟨h, hE (by omega)⟩
          · omega
        refine ⟨Or.inr ⟨by omega, by omega⟩, ?_⟩
        rcases reportsCompletion_cases s data len with ⟨hf, _⟩ | ⟨_, _, _, _, _, _, hr⟩
        · exact hf
        · omega

theorem spent_feedTrace (cs : List Notification) :
    ∀ s : BmsState, Spent s → (∀ c ∈ cs, 0 < c.len) →
      List.countP (fun r => reportsCompletion r.2) (feedTrace s cs) = 0
      ∧ List.countP Printed.isCompletePacket (feed s cs).2 = 0
      ∧ List.countP Printed.isVerdict (feed s cs).2 = 0
      ∧ List.countP Printed.isRecord (feed s cs).2 = 0 := by
  induction cs with
  | nil => intro s _ _; simp [feedTrace, feed]
  | cons c cs ih =>
    intro s hs hne
    obtain ⟨hsp, hno⟩ := spent_step s c.data c.len hs (hne c (by simp))
    obtain ⟨i1, i2, i3, i4⟩ := ih _ hsp (fun x hx => hne x (List.mem_cons_of_mem _ hx))
    rcases reportsCompletion_cases s c.data c.len with ⟨_, c1, c2, c3, _⟩ | ⟨ht, _⟩
    · simp only [feedTrace, feed, List.countP_cons, List.countP_append, hno, i1, i2, i3, i4,
        c1, c2, c3]
      simp
    · rw [hno] at ht; simp at ht

theorem feedTrace_counts (cs : List Notification) :
    ∀ s : BmsState, (∀ c ∈ cs, 0 < c.len) →
      List.countP (fun r => reportsCompletion r.2) (feedTrace s cs) ≤ 1
      ∧ List.countP Printed.isCompletePacket (feed s cs).2 ≤ 1
      ∧ List.countP Printed.isVerdict (feed s cs).2 ≤ 1
      ∧ List.countP Printed.isRecord (feed s cs).2 ≤ 1 := by
  induction cs with
  | nil => intro s _; simp [feedTrace, feed]
  | cons c cs ih =>
    intro s hne
    have hne2 : ∀ x ∈ cs, 0 < x.len := fun x hx => hne x (List.mem_cons_of_mem _ hx)
    rcases reportsCompletion_cases s c.data c.len with
      ⟨hf, c1, c2, c3, _⟩ | ⟨ht, c1, c2, c3, _, he, hr⟩
    · obtain ⟨i1, i2, i3, i4⟩ := ih (bmsNotifyCallback s c.data c.len).1 hne2
      simp only [feedTrace, feed, List.countP_cons, List.countP_append, hf, c1, c2, c3]
      simp only [Bool.false_eq_true, if_false, Nat.add_zero, Nat.zero_add]
      exact ⟨i1, i2, i3, i4⟩
    · have hsp : Spent (bmsNotifyCallback s c.data c.len).1 := Or.inr ⟨by omega, by omega⟩
      obtain ⟨i1, i2, i3, i4⟩ := spent_feedTrace cs _ hsp hne2
      simp only [feedTrace, feed, List.countP_cons, List.countP_append, ht, c1, i1, i2, i3, i4]
      simp only [if_true, Nat.add_zero, Nat.zero_add]
      exact ⟨Nat.le_refl _, Nat.le_refl _, by omega, c3⟩

/-- C16: for every sequence of non-empty chunks handled from any state, in
particular from the reset state, the completion test succeeds on at most one
chunk, so the complete-packet report, the checksum verdict and the decoded
record are each printed at most once; a chunk on which it succeeds was appended
in full and brought the length to exactly `expected + 7` with the error flag
clear; every chunk on which it does not succeed yields Continuing or Error. -/
theorem at_most_one_completion (s : BmsState) (cs : List Notification)
    (hne : ∀ c ∈ cs, 0 < c.len) :
    List.countP (fun r => reportsCompletion r.2) (feedTrace s cs) ≤ 1
    ∧ List.countP Printed.isCompletePacket (feed s cs).2 ≤ 1
    ∧ List.countP Printed.isVerdict (feed s cs).2 ≤ 1
    ∧ List.countP Printed.isRecord (feed s cs).2 ≤ 1
    ∧ (∀ (s1 : BmsState) (data : Mem) (len : Nat),
        reportsCompletion (bmsNotifyCallback s1 data len).2 = true →
          (bmsNotifyCallback s1 data len).1.bmsDataLengthReceived
            = s1.bmsDataLengthReceived + len
          ∧ (bmsNotifyCallback s1 data len).1.bmsDataLengthReceived
            = (bmsNotifyCallback s1 data len).1.bmsDataLengthExpected + 7
          ∧ (bmsNotifyCallback s1 data len).1.bmsDataError = false)
    ∧ (∀ (s1 : BmsState) (data : Mem) (len : Nat),
        reportsCompletion (bmsNotifyCallback s1 data len).2 = false →
          appendOutcome (bmsNotifyCallback s1 data len) = AppendOutcome.Continuing
          ∨ appendOutcome (bmsNotifyCallback s1 data len) = AppendOutcome.Error) := by
  obtain ⟨h1, h2, h3, h4⟩ := feedTrace_counts cs s hne
  refine ⟨h1, h2, h3, h4, ?_, ?_⟩
  · intro s1 data len hc
    obtain ⟨_, he, hr, ha⟩ := completion_appends s1 data len hc
    exact ⟨ha, hr, he⟩
  · intro s1 data len hc
    rcases reportsCompletion_cases s1 data len with ⟨_, _, _, _, ho⟩ | ⟨ht, _⟩
    · exact ho
    · rw [hc] at ht; simp at ht

/-- Witness of C16: the logged `0x03` frame in its two chunks, followed by the
logged `0x04` frame, all before any reset: one completion. -/
theorem at_most_one_completion_witness :
    List.countP Printed.isCompletePacket
      (feed initialState
        [Notification.ofList (sampleFrame03.take 20), Notification.ofList (sampleFrame03.drop 20),
         Notification.ofList sampleFrame04]).2 ≤ 1
    ∧ List.countP Printed.isVerdict
      (feed initialState
        [Notification.ofList (sampleFrame03.take 20), Notification.ofList (sampleFrame03.drop 20),
         Notification.ofList sampleFrame04]).2 ≤ 1 :=
  ⟨(at_most_one_completion initialState
      [Notification.ofList (sampleFrame03.take 20), Notification.ofList (sampleFrame03.drop 20),
       Notification.ofList sampleFrame04] (by decide)).2.1,
   (at_most_one_completion initialState
      [Notification.ofList (sampleFrame03.take 20), Notification.ofList (sampleFrame03.drop 20),
       Notification.ofList sampleFrame04] (by decide)).2.2.1⟩

/-- C17, the code evaluated where it departs from the claim. For every complete
buffer that fails validation no record is printed, and the `printf` of lines
189-190 receives the computed checksum first and the stored big-endian value
second, while its format labels the first "received" and the second
"calculated". On `badChecksumFrame` (stored `0xFE5F`, computed `0xFE5E`) the
line reads "received is 0xFE5E, calculated is 0xFE5F". -/
theorem checksum_mismatch_labels_swapped :
    (∀ s : BmsState, getIsChecksumValidForReceivedData s.bmsDataReceived = false →
      completionReport s
        = [Printed.completePacket (bytesOf s.bmsDataReceived s.bmsDataLengthReceived),
           Printed.checksumError (getChecksumForReceivedData s.bmsDataReceived)
             (256 * (s.bmsDataReceived (s.bmsDataLengthExpected + 4)).val
               + (s.bmsDataReceived (s.bmsDataLengthExpected + 5)).val)])
    ∧ getChecksumForReceivedData (memOfList badChecksumFrame) = 0xFE5E
    ∧ (memOfList badChecksumFrame (8 + 4)).val * 256
        + (memOfList badChecksumFrame (8 + 5)).val = 0xFE5F
    ∧ (feed initialState [Notification.ofList badChecksumFrame]).2
        = [Printed.completePacket badChecksumFrame, Printed.checksumError 0xFE5E 0xFE5F] := by
  refine ⟨?_, by decide, by decide, by decide⟩
  intro s h
  simp [completionReport, h]

/-- C18: `appendBmsPacket` returns true exactly when `r + n ≤ 98`; when it does,
the `n` chunk bytes are stored in order at positions `r..r+n-1`, every other
position is unchanged and the length becomes `r + n`; when it does not, buffer
and length are unchanged. So in every reachable state the length is at most 98,
and a call that reports a complete frame has an expected length of at most 91. -/
theorem append_acceptance_bound :
    (∀ (buf : Mem) (r : Nat) (data : Mem) (n : Nat),
      ((appendBmsPacket (buf, r) data n).1 = true ↔ r + n ≤ 98)
      ∧ ((appendBmsPacket (buf, r) data n).1 = true →
          (∀ i, i < n → (appendBmsPacket (buf, r) data n).2.1 (r + i) = data i)
          ∧ (∀ j, j < r → (appendBmsPacket (buf, r) data n).2.1 j = buf j)
          ∧ (∀ j, r + n ≤ j → (appendBmsPacket (buf, r) data n).2.1 j = buf j)
          ∧ (appendBmsPacket (buf, r) data n).2.2 = r + n)
      ∧ ((appendBmsPacket (buf, r) data n).1 = false →
          (appendBmsPacket (buf, r) data n).2 = (buf, r)))
    ∧ (∀ s : BmsState, Reachable s → s.bmsDataLengthReceived ≤ 98)
    ∧ (∀ (s : BmsState) (data : Mem) (len : Nat), Reachable s →
        reportsCompletion (bmsNotifyCallback s data len).2 = true →
        (bmsNotifyCallback s data len).1.bmsDataLengthExpected ≤ 91) := by
  refine ⟨?_, reachable_received_le, ?_⟩
  · intro buf r data n
    by_cases h : n + r < 99
    · have ha := appendBmsPacket_accept (buf, r) data n h
      rw [ha]
      refine ⟨⟨fun _ => by omega, fun _ => rfl⟩, fun _ => ⟨?_, ?_, ?_, ?_⟩, fun hf => by simp at hf⟩
      · intro i hi
        have hc : r ≤ r + i ∧ r + i < r + n := by omega
        simp only [appendLoop_fst, if_pos hc, Nat.add_sub_cancel_left]
      · intro j hj
        have hc : ¬ (r ≤ j ∧ j < r + n) := by omega
        simp only [appendLoop_fst, if_neg hc]
      · intro j hj
        have hc : ¬ (r ≤ j ∧ j < r + n) := by omega
        simp only [appendLoop_fst, if_neg hc]
      · simp only [appendLoop_snd]
    · have hr := appendBmsPacket_reject (buf, r) data n (by omega)
      rw [hr]
      refine ⟨⟨fun hf => by simp at hf, fun hle => by omega⟩, fun hf => by simp at hf,
        fun _ => rfl⟩
  · intro s data len hs hc
    have hstep : Reachable (bmsNotifyCallback s data len).1 :=
      Reachable.step s (Event.notify ⟨data, len⟩) hs
    have hle := reachable_received_le _ hstep
    obtain ⟨_, _, hr, _⟩ := completion_appends s data len hc
    omega

/-! ## Reassembler: header of the accumulated frame -/

theorem header_step (s : BmsState) (data : Mem) (len : Nat)
    (hfirst : s.bmsDataLengthReceived = 0 → 4 ≤ len)
    (hinv : 0 < s.bmsDataLengthReceived →
      4 ≤ s.bmsDataLengthReceived ∧ s.bmsDataReceived 0 = 0xDD ∧ s.bmsDataReceived 2 = 0
      ∧ (s.bmsDataReceived 3).val = s.bmsDataLengthExpected)
    (hpos : 0 < (bmsNotifyCallback s data len).1.bmsDataLengthReceived) :
    4 ≤ (bmsNotifyCallback s data len).1.bmsDataLengthReceived
    ∧ (bmsNotifyCallback s data len).1.bmsDataReceived 0 = 0xDD
    ∧ (bmsNotifyCallback s data len).1.bmsDataReceived 2 = 0
    ∧ ((bmsNotifyCallback s data len).1.bmsDataReceived 3).val
        = (bmsNotifyCallback s data len).1.bmsDataLengthExpected := by
  by_cases he : s.bmsDataError = true
  · have h : bmsNotifyCallback s data len = (s, []) := by simp [bmsNotifyCallback, he]
    rw [h] at hpos ⊢
    exact hinv hpos
  · have hef : s.bmsDataError = false := by simpa using he
    rw [bmsNotifyCallback_fst s data len hef] at hpos ⊢
    by_cases h0 : s.bmsDataLengthReceived = 0
    · have h4 := hfirst h0
      by_cases hd : data 0 = 0xDD
      · by_cases h2 : data 2 = 0
        · by_cases hacc : len + 0 < 99
          · have ha := appendBmsPacket_accept (s.bmsDataReceived, 0) data len hacc
            have c0 : 0 < len := by omega
            have c2 : 2 < len := by omega
            have c3 : 3 < len := by omega
            simp [receiveChunk, h0, hd, h2, ha, appendLoop_snd, appendLoop_fst, c0, c2, c3]
            omega
          · have hr := appendBmsPacket_reject (s.bmsDataReceived, 0) data len (by omega)
            simp [receiveChunk, h0, hd, h2, hr] at hpos
        · simp [receiveChunk, h0, hd, h2] at hpos
      · simp [receiveChunk, h0, hd] at hpos
    · obtain ⟨i4, i0, i2, i3⟩ := hinv (by omega)
      by_cases hacc : len + s.bmsDataLengthReceived < 99
      · have ha := appendBmsPacket_accept (s.bmsDataReceived, s.bmsDataLengthReceived) data
          len hacc
        have c0 : ¬ (s.bmsDataLengthReceived ≤ 0 ∧ 0 < s.bmsDataLengthReceived + len) := by
          omega
        have c2 : ¬ (s.bmsDataLengthReceived ≤ 2 ∧ 2 < s.bmsDataLengthReceived + len) := by
          omega
        have c3 : ¬ (s.bmsDataLengthReceived ≤ 3 ∧ 3 < s.bmsDataLengthReceived + len) := by
          omega
        simp only [receiveChunk, h0, if_false, ha, appendLoop_snd, appendLoop_fst, if_neg c0,
          if_neg c2, if_neg c3]
        exact ⟨by omega, i0, i2, i3⟩
      · have hr := appendBmsPacket_reject (s.bmsDataReceived, s.bmsDataLengthReceived) data
          len (by omega)
        simp only [receiveChunk, h0, if_false, hr]
        exact ⟨i4, i0, i2, i3⟩

theorem header_reachable (s : BmsState) (hs : ReachableByFrames s) :
    0 < s.bmsDataLengthReceived →
      4 ≤ s.bmsDataLengthReceived ∧ s.bmsDataReceived 0 = 0xDD ∧ s.bmsDataReceived 2 = 0
      ∧ (s.bmsDataReceived 3).val = s.bmsDataLengthExpected := by
  induction hs with
  | reset s h0 _ _ => intro h; omega
  | notify s c _ hfirst ih => exact header_step s c.data c.len hfirst ih

/-- C19: in every state reachable from a reset state by notifications whose
frame-starting chunks (handled while the buffer is empty) carry at least 4
bytes, a non-empty buffer holds at least 4 bytes, with `bmsDataReceived[0] =
0xDD`, `bmsDataReceived[2] = 0` and `bmsDataReceived[3] = bmsDataLengthExpected`;
so when the completion test `received = expected + 7` holds, the length it uses
is the length byte that checksum validation and decoding read. -/
theorem header_invariant (s : BmsState) (hs : ReachableByFrames s)
    (hpos : 0 < s.bmsDataLengthReceived) :
    4 ≤ s.bmsDataLengthReceived
    ∧ s.bmsDataReceived 0 = 0xDD
    ∧ s.bmsDataReceived 2 = 0
    ∧ (s.bmsDataReceived 3).val = s.bmsDataLengthExpected
    ∧ (s.bmsDataLengthReceived = s.bmsDataLengthExpected + 7 →
        s.bmsDataLengthReceived = (s.bmsDataReceived 3).val + 7
        ∧ (s.bmsDataReceived 3).val + 4 = s.bmsDataLengthExpected + 4) := by
  obtain ⟨h4, h0, h2, h3⟩ := header_reachable s hs hpos
  exact ⟨h4, h0, h2, h3, fun hc => ⟨by omega, by omega⟩⟩

/-- Witness of C19: the state after the two chunks of the logged `0x03` frame. -/
theorem header_invariant_witness :
    ReachableByFrames
      (bmsNotifyCallback
        (bmsNotifyCallback initialState (Notification.ofList (sampleFrame03.take 20)).data
          (Notification.ofList (sampleFrame03.take 20)).len).1
        (Notification.ofList (sampleFrame03.drop 20)).data
        (Notification.ofList (sampleFrame03.drop 20)).len).1
    ∧ ((bmsNotifyCallback
        (bmsNotifyCallback initialState (Notification.ofList (sampleFrame03.take 20)).data
          (Notification.ofList (sampleFrame03.take 20)).len).1
        (Notification.ofList (sampleFrame03.drop 20)).data
        (Notification.ofList (sampleFrame03.drop 20)).len).1.bmsDataReceived 3).val
      = (bmsNotifyCallback
        (bmsNotifyCallback initialState (Notification.ofList (sampleFrame03.take 20)).data
          (Notification.ofList (sampleFrame03.take 20)).len).1
        (Notification.ofList (sampleFrame03.drop 20)).data
        (Notification.ofList (sampleFrame03.drop 20)).len).1.bmsDataLengthExpected :=
  ⟨ReachableByFrames.notify _ _
      (ReachableByFrames.notify _ _ (ReachableByFrames.reset _ rfl rfl rfl) (by decide))
      (by decide),
   (header_invariant _
      (ReachableByFrames.notify _ _
        (ReachableByFrames.notify _ _ (ReachableByFrames.reset _ rfl rfl rfl) (by decide))
        (by decide))
      (by decide)).2.2.2.1⟩

/-! ## Decoder: reads -/

/-- The `0x04` branch depends on `data` only through the offsets of
`cellVoltageReads`. -/
theorem printCellVoltages_congr (data data2 : Mem)
    (h : ∀ k ∈ cellVoltageReads data, data2 k = data k) :
    printCellVoltages data2 = printCellVoltages data := by
  have h3 : data2 3 = data 3 := h 3 (by simp [cellVoltageReads])
  unfold printCellVoltages
  simp only [h3]
  apply List.map_congr_left
  intro i hi
  have ha : data2 (4 + 2 * i) = data (4 + 2 * i) :=
    h _ (by simp only [cellVoltageReads, List.mem_cons, List.mem_flatMap]
            exact Or.inr ⟨i, hi, by simp⟩)
  have hb : data2 (5 + 2 * i) = data (5 + 2 * i) :=
    h _ (by simp only [cellVoltageReads, List.mem_cons, List.mem_flatMap]
            exact Or.inr ⟨i, hi, by simp⟩)
  simp only [cellLine, ha, hb]

/-- The `0x03` branch depends on `data` only through the offsets of
`packSummaryReads`. -/
theorem printPackSummary_congr (data data2 : Mem)
    (h : ∀ k ∈ packSummaryReads data, data2 k = data k) :
    printPackSummary data2 = printPackSummary data := by
  have hfix : ∀ k, k ∈ [4, 5, 6, 7, 8, 9, 10, 11, 12, 13, 14, 15, 25, 20, 21, 22, 23, 24, 26] →
      data2 k = data k := by
    intro k hk
    apply h
    simp only [packSummaryReads, List.mem_append, List.mem_cons]
    simp only [List.mem_cons, List.mem_singleton, List.not_mem_nil, or_false] at hk
    rcases hk with hk | hk | hk | hk | hk | hk | hk | hk | hk | hk | hk | hk | hk | hk | hk | hk
      | hk | hk | hk <;> subst hk <;> simp
  have hbal : ∀ i ∈ List.range (data 25).val, balancingLine data2 i = balancingLine data i := by
    intro i hi
    have hr : data2 (16 + i / 8) = data (16 + i / 8) := by
      apply h
      simp only [packSummaryReads, List.mem_append, List.mem_map]
      exact Or.inl (Or.inl (Or.inr ⟨i, hi, rfl⟩))
    simp only [balancingLine, hr]
  have htemp : ∀ i ∈ List.range (data 26).val,
      temperatureLine data2 i = temperatureLine data i := by
    intro i hi
    have ha : data2 (27 + i * 2) = data (27 + i * 2) := by
      apply h
      simp only [packSummaryReads, List.mem_append, List.mem_flatMap]
      exact Or.inr ⟨i, hi, by simp⟩
    have hb : data2 (28 + i * 2) = data (28 + i * 2) := by
      apply h
      simp only [packSummaryReads, List.mem_append, List.mem_flatMap]
      exact Or.inr ⟨i, hi, by simp⟩
    simp only [temperatureLine, ha, hb]
  unfold printPackSummary
  simp only [hfix 4 (by simp), hfix 5 (by simp), hfix 6 (by simp), hfix 7 (by simp),
    hfix 8 (by simp), hfix 9 (by simp), hfix 10 (by simp), hfix 11 (by simp),
    hfix 12 (by simp), hfix 13 (by simp), hfix 14 (by simp), hfix 15 (by simp),
    hfix 20 (by simp), hfix 21 (by simp), hfix 22 (by simp), hfix 23 (by simp),
    hfix 24 (by simp), hfix 25 (by simp), hfix 26 (by simp),
    List.map_congr_left hbal, List.map_congr_left htemp]

/-- C20: with `N = frame[3]`, every offset read by the `0x04` branch lies in
`3..3+N`; every offset read by the `0x03` branch lies in `4..3+N` provided
`N ≥ 23 + 2*frame[26]` and `frame[25] ≤ 32`, and with `frame[25] ≤ 32` the
balancing reads stay inside bytes 16..19. The two branches depend on the frame
only through the offsets listed as read. -/
theorem decoder_reads_in_payload (frame : Mem) :
    (∀ k ∈ cellVoltageReads frame, 3 ≤ k ∧ k ≤ 3 + (frame 3).val)
    ∧ (23 + 2 * (frame 26).val ≤ (frame 3).val → (frame 25).val ≤ 32 →
        ∀ k ∈ packSummaryReads frame, 4 ≤ k ∧ k ≤ 3 + (frame 3).val)
    ∧ ((frame 25).val ≤ 32 → ∀ i, i < (frame 25).val → 16 ≤ 16 + i / 8 ∧ 16 + i / 8 ≤ 19)
    ∧ (∀ frame2 : Mem, (∀ k ∈ cellVoltageReads frame, frame2 k = frame k) →
        printCellVoltages frame2 = printCellVoltages frame)
    ∧ (∀ frame2 : Mem, (∀ k ∈ packSummaryReads frame, frame2 k = frame k) →
        printPackSummary frame2 = printPackSummary frame) := by
  refine ⟨?_, ?_, ?_, fun f2 h => printCellVoltages_congr frame f2 h,
    fun f2 h => printPackSummary_congr frame f2 h⟩
  · intro k hk
    simp only [cellVoltageReads, List.mem_cons, List.mem_flatMap, List.mem_range,
      List.mem_singleton, List.not_mem_nil, or_false] at hk
    rcases hk with hk | ⟨i, hi, hk | hk⟩ <;> omega
  · intro hN hC k hk
    simp only [packSummaryReads, List.mem_append, List.mem_cons, List.mem_map,
      List.mem_flatMap, List.mem_range, List.mem_singleton, List.not_mem_nil, or_false] at hk
    rcases hk with ((hk | ⟨i, hi, hk⟩) | hk) | ⟨i, hi, hk | hk⟩
    · rcases hk with hk | hk | hk | hk | hk | hk | hk | hk | hk | hk | hk | hk | hk <;> omega
    · omega
    · rcases hk with hk | hk | hk | hk | hk | hk <;> omega
    · omega
    · omega
  · intro hC i hi
    omega

end BmsReader
